import Mathlib

/-!
# AliFastSimulationTask: a shallow embedding

The task drives an external event generator once per iteration, copies the
primary particles of the generated stack into an output collection and
optionally fills three diagnostic histograms.

Conventions of the embedding:

* a C++ pointer is an `Option`; dereferencing a null pointer makes the
  enclosing method return `none`;
* objects the task reaches through a pointer (generator, stack, output
  collection, histograms) are stored by value in the field that holds the
  pointer, since nothing else mutates them while the task runs;
* process-wide state of the host framework (global `gAlice`, `gRandom`, the
  run-loader singleton, the input event's object list, posted outputs) is the
  explicit `Host` record threaded through every method;
* `Float_t`/`Double_t` quantities are exact rationals, `Int_t` is `Int`.
-/

set_option autoImplicit false

/-! ## Host framework objects -/

/-- Modelled from the spec: a generated particle of the stack (ROOT class
`TParticle`, declared outside these sources). Only the first-mother index is
read by the task; `pdg` and `kinematics` stand for the "original kinematic
data" carried along. -/
structure TParticle where
  pdg : Int
  kinematics : Nat
  firstMother : Int
  deriving DecidableEq, Repr

/-- First-mother index of a particle, `TParticle::GetFirstMother`. -/
def TParticle.GetFirstMother (p : TParticle) : Int := p.firstMother

/-- Modelled from the spec: an output record, a "lightweight particle record
(kinematics + mother index)" (class `AliMCParticle`, declared outside these
sources): the source particle, its label and its mother index. -/
structure AliMCParticle where
  particle : TParticle
  label : Int
  mother : Int
  deriving DecidableEq, Repr

/-- Constructor `AliMCParticle(part, 0, label)`: the mother index starts at -1. -/
def AliMCParticle.new (part : TParticle) (label : Int) : AliMCParticle :=
  { particle := part, label := label, mother := -1 }

/-- Setter `AliMCParticle::SetMother`. -/
def AliMCParticle.SetMother (m : AliMCParticle) (idx : Int) : AliMCParticle :=
  { m with mother := idx }

/-- Modelled from the spec: generator event headers (declared outside these
sources). The hard-process kind (`AliGenPythiaEventHeader`) carries the
"cross-section, trial count, p_T-hard" metadata; any other kind carries
none. -/
inductive AliGenEventHeader where
  | pythia (xsec : ℚ) (trials : Int) (ptHard : ℚ)
  | other (kind : String)
  deriving DecidableEq

/-- What one `Generate()` call leaves behind: the primary count and particle
slots of the stack, and the generator event header of the run header. -/
structure GenEvent where
  nprimary : Int
  particles : List (Option TParticle)
  header : Option AliGenEventHeader

/-- Modelled from the spec: the particle stack (`AliStack`, declared outside
these sources), a "mutable buffer of generated particles for one event" that
"supports `reset()`, `primary_count()`, `particle_at(index)`". -/
structure AliStack where
  nprimary : Int
  particles : List (Option TParticle)
  deriving DecidableEq

/-- Object name of the stack: `TObject::GetName` gives the class name. -/
def AliStack.GetName (_ : AliStack) : String := "AliStack"

/-- Empty the stack, `AliStack::Reset`. -/
def AliStack.Reset (_ : AliStack) : AliStack := { nprimary := 0, particles := [] }

/-- Number of primaries, `AliStack::GetNprimary`. -/
def AliStack.GetNprimary (s : AliStack) : Int := s.nprimary

/-- Particle at stack index `i`, `AliStack::Particle`; null when the slot is
empty or outside the stack. -/
def AliStack.Particle (s : AliStack) (i : Nat) : Option TParticle :=
  (s.particles.get? i).join

/-- The process-wide random source `gRandom`. -/
inductive RandomSource where
  | default
  | tRandom3 (seed : Nat)
  deriving DecidableEq

/-- Modelled from the spec: the event generator (`AliGenerator`, declared
outside these sources), an "opaque external object exposing `configure(seed)`,
`bind(particle_stack)`, `initialize()`, `generate_one_event()`". `produce n` is
the event its `n`-th `Generate()` call yields; `isPythia` tells whether the
downcast to the hard-process variant succeeds. -/
structure AliGenerator where
  isPythia : Bool
  random : Option RandomSource
  eventListRange : Option (Int × Int)
  stackBound : Bool
  initDone : Bool
  eventNo : Nat
  produce : Nat → GenEvent

/-- Run header (`AliHeader`) holding the generator event header. -/
structure AliHeader where
  genEventHeader : Option AliGenEventHeader
  deriving DecidableEq

/-- Run loader (`AliRunLoader`): event folder name and run header. -/
structure AliRunLoader where
  folder : String
  header : Option AliHeader
  deriving DecidableEq

/-- Modelled from the spec: objects of the "shared event container" with its
"lookup-by-name/add-object" service (declared outside these sources), known by
kind and name. -/
inductive ListObject where
  | clonesArray (name : String)
  | stack (name : String)
  | other (name : String)
  deriving DecidableEq

/-- Name of a registered object. -/
def ListObject.GetName : ListObject → String
  | .clonesArray n => n
  | .stack n => n
  | .other n => n

/-- Host state shared with the task. -/
structure Host where
  gAlice : Bool
  gRandom : RandomSource
  runLoader : Option AliRunLoader
  inputEvent : List ListObject
  openedFiles : List Nat
  posted : List Nat
  deriving DecidableEq

/-- Lookup by name in the input event, `AliVEvent::FindListObject`. -/
def Host.FindListObject (w : Host) (name : String) : Option ListObject :=
  w.inputEvent.find? (fun o => o.GetName == name)

/-- Append an object to the input event, `AliVEvent::AddObject`. -/
def Host.AddObject (w : Host) (o : ListObject) : Host :=
  { w with inputEvent := w.inputEvent ++ [o] }

/-! ## The output collection (`TClonesArray`) -/

/-- Largest `Int_t`. -/
def kMaxInt : Nat := 2147483647

/-- Clamp `x` into `[lb, ub]`, `TMath::Range`. -/
def TMathRange (lb ub x : Nat) : Nat := if x < lb then lb else if ub < x then ub else x

/-- Modelled from the spec: the output particle collection (ROOT class
`TClonesArray`, declared outside these sources), "a growable, indexed sequence
of lightweight particle records", cleared retaining its allocated capacity:
the name, the allocated capacity and the slots up to the last used one. -/
structure TClonesArray where
  name : String
  capacity : Nat
  cont : List (Option AliMCParticle)
  deriving DecidableEq

/-- Constructor `TClonesArray(cls, size)`. -/
def TClonesArray.new (size : Nat) : TClonesArray :=
  { name := "AliMCParticles", capacity := size, cont := [] }

/-- Rename, `SetName`. -/
def TClonesArray.SetName (a : TClonesArray) (n : String) : TClonesArray := { a with name := n }

/-- Remove all records and keep the allocation, `Clear("C")`. -/
def TClonesArray.Clear (a : TClonesArray) : TClonesArray := { a with cont := [] }

/-- Number of slots in use, `GetEntriesFast`. -/
def TClonesArray.GetEntriesFast (a : TClonesArray) : Nat := a.cont.length

/-- Capacity after growing by `delta`, `TCollection::GrowBy`. -/
def TClonesArray.GrowBy (a : TClonesArray) (delta : Nat) : Nat :=
  a.capacity + TMathRange 2 (kMaxInt - a.capacity) delta

/-- Construct `obj` in slot `idx` (placement new on `operator[]`): storage is
expanded when `idx` lies beyond the capacity, slots skipped over stay null and
the last used slot becomes at least `idx`. -/
def TClonesArray.constructAt (a : TClonesArray) (idx : Nat) (obj : AliMCParticle) :
    TClonesArray :=
  { a with
    capacity := if a.capacity ≤ idx then max (idx + 1) (a.GrowBy a.capacity) else a.capacity
    cont := if idx < a.cont.length then a.cont.set idx (some obj)
            else a.cont ++ List.replicate (idx - a.cont.length) none ++ [some obj] }

/-! ## Histograms -/

/-- Bin of `x` on an axis of `nbins` equal bins over `[xmin, xmax)`,
`TAxis::FindBin`: 0 is underflow, `nbins + 1` overflow. -/
def TAxisFindBin (nbins : Nat) (xmin xmax x : ℚ) : Nat :=
  if x < xmin then 0
  else if ¬ x < xmax then nbins + 1
  else 1 + Int.toNat ⌊(nbins : ℚ) * (x - xmin) / (xmax - xmin)⌋

/-- Add `w` to the `i`-th entry of a bin array. -/
def addAt : List ℚ → Nat → ℚ → List ℚ
  | [], _, _ => []
  | x :: xs, 0, w => (x + w) :: xs
  | x :: xs, i + 1, w => x :: addAt xs i w

/-- Modelled from the spec: a one-dimensional histogram (ROOT class `TH1F`,
declared outside these sources), the "one-bin counter" and the "500-bin
distribution": axis, bin contents (underflow, bins 1..nbins, overflow) and
number of entries. -/
structure TH1F where
  name : String
  nbins : Nat
  xlow : ℚ
  xup : ℚ
  xTitle : String
  yTitle : String
  bins : List ℚ
  entries : Nat
  deriving DecidableEq

/-- Constructor `TH1F(name, title, nbins, xlow, xup)`. -/
def TH1F.new (name : String) (nbins : Nat) (xlow xup : ℚ) : TH1F :=
  { name := name, nbins := nbins, xlow := xlow, xup := xup, xTitle := "", yTitle := "",
    bins := List.replicate (nbins + 2) 0, entries := 0 }

/-- Content of a bin, `GetBinContent`. -/
def TH1F.GetBinContent (h : TH1F) (bin : Nat) : ℚ := h.bins.getD bin 0

/-- Weighted fill, `TH1::Fill(x, w)`. -/
def TH1F.Fill (h : TH1F) (x w : ℚ) : TH1F :=
  { h with entries := h.entries + 1
           bins := addAt h.bins (TAxisFindBin h.nbins h.xlow h.xup x) w }

/-- Modelled from the spec: a profile histogram (ROOT class `TProfile`,
declared outside these sources), the "one-bin weighted-average accumulator":
per bin the sum of the samples and their number. -/
structure TProfile where
  name : String
  nbins : Nat
  xlow : ℚ
  xup : ℚ
  yTitle : String
  sumY : List ℚ
  binEntries : List ℚ
  entries : Nat
  deriving DecidableEq

/-- Constructor `TProfile(name, title, nbins, xlow, xup)`. -/
def TProfile.new (name : String) (nbins : Nat) (xlow xup : ℚ) : TProfile :=
  { name := name, nbins := nbins, xlow := xlow, xup := xup, yTitle := "",
    sumY := List.replicate (nbins + 2) 0, binEntries := List.replicate (nbins + 2) 0,
    entries := 0 }

/-- Sample fill, `TProfile::Fill(x, y)`. -/
def TProfile.Fill (h : TProfile) (x y : ℚ) : TProfile :=
  { h with entries := h.entries + 1
           sumY := addAt h.sumY (TAxisFindBin h.nbins h.xlow h.xup x) y
           binEntries := addAt h.binEntries (TAxisFindBin h.nbins h.xlow h.xup x) 1 }

/-- Reported value of a bin, `TProfile::GetBinContent`: the mean of its
samples, 0 for a bin without samples. -/
def TProfile.GetBinContent (h : TProfile) (bin : Nat) : ℚ :=
  if h.binEntries.getD bin 0 = 0 then 0 else h.sumY.getD bin 0 / h.binEntries.getD bin 0

/-! ## Generator operations -/

/-- Setter `AliGenerator::SetRandom`. -/
def AliGenerator.SetRandom (g : AliGenerator) (r : RandomSource) : AliGenerator :=
  { g with random := some r }

/-- Setter `AliGenPythia::SetEventListRange`. -/
def AliGenerator.SetEventListRange (g : AliGenerator) (lo hi : Int) : AliGenerator :=
  { g with eventListRange := some (lo, hi) }

/-- Setter `AliGenerator::SetStack`. -/
def AliGenerator.SetStack (g : AliGenerator) : AliGenerator := { g with stackBound := true }

/-- Initialisation `AliGenerator::Init`. -/
def AliGenerator.Init (g : AliGenerator) : AliGenerator := { g with initDone := true }

/-- Store the generator event header in the current run header, when there is
one. -/
def Host.SetGenEventHeader (w : Host) (h : Option AliGenEventHeader) : Host :=
  match w.runLoader with
  | none => w
  | some rl =>
    match rl.header with
    | none => w
    | some _ => { w with runLoader := some { rl with header := some { genEventHeader := h } } }

/-- One event: `AliGenerator::Generate` pushes the event's particles on the
bound stack and publishes its header. -/
def AliGenerator.Generate (g : AliGenerator) (st : AliStack) (w : Host) :
    AliGenerator × AliStack × Host :=
  let ev := g.produce g.eventNo
  ({ g with eventNo := g.eventNo + 1 },
   { nprimary := st.nprimary + ev.nprimary, particles := st.particles ++ ev.particles },
   w.SetGenEventHeader ev.header)

/-! ## The task -/

/-- State of one `AliFastSimulationTask` instance: the data members the
constructors initialise, with the types the methods use them at. `name` and
`outputSlots` belong to the base class: the task name and the output slots
declared to the analysis manager with `DefineOutput`. `fOutput` lists the
names of the histograms owned by the output list. -/
structure AliFastSimulationTask where
  name : String
  outputSlots : List Nat
  fQAhistos : Bool
  fGen : Option AliGenerator
  fMCParticlesName : String
  fIsInit : Bool
  fStack : Option AliStack
  fMCParticles : Option TClonesArray
  fHistTrials : Option TH1F
  fHistXsection : Option TProfile
  fHistPtHard : Option TH1F
  fOutput : Option (List String)

namespace AliFastSimulationTask

/-- Default constructor. -/
def default : AliFastSimulationTask :=
  { name := "AliFastSimulationTask", outputSlots := [], fQAhistos := false, fGen := none,
    fMCParticlesName := "GenParticles", fIsInit := false, fStack := none,
    fMCParticles := none, fHistTrials := none, fHistXsection := none, fHistPtHard := none,
    fOutput := none }

/-- Standard constructor `AliFastSimulationTask(name, drawqa)`: output slot 1
is declared only when diagnostics are requested. -/
def new (name : String) (drawqa : Bool) : AliFastSimulationTask :=
  { name := name, outputSlots := if drawqa then [1] else [], fQAhistos := drawqa, fGen := none,
    fMCParticlesName := "GenParticles", fIsInit := false, fStack := none,
    fMCParticles := none, fHistTrials := none, fHistXsection := none, fHistPtHard := none,
    fOutput := none }

/-- Create user output: nothing without diagnostics, otherwise the output list
with the three histograms, posted on slot 1. -/
def UserCreateOutputObjects (t : AliFastSimulationTask) (w : Host) :
    AliFastSimulationTask × Host :=
  if !t.fQAhistos then (t, w)
  else
    let w := { w with openedFiles := w.openedFiles ++ [1] }
    let out : List String := []
    let hTrials := { TH1F.new "fHistTrials" 1 0 1 with yTitle := "trials" }
    let out := out ++ [hTrials.name]
    let hXsec := { TProfile.new "fHistXsection" 1 0 1 with yTitle := "xsection" }
    let out := out ++ [hXsec.name]
    let hPtHard := { TH1F.new "fHistPtHard" 500 0 500 with
                     xTitle := "p_\x7bT,hard\x7d (GeV/c)", yTitle := "counts" }
    let out := out ++ [hPtHard.name]
    ({ t with fOutput := some out, fHistTrials := some hTrials, fHistXsection := some hXsec,
              fHistPtHard := some hPtHard },
     { w with posted := w.posted ++ [1] })

/-- First block of `ExecOnce`: without a simulation context (`gAlice` null)
one is created and `gRandom` replaced by a `TRandom3` with seed 0. -/
def makeContext (w : Host) : Host :=
  if !w.gAlice then { w with gAlice := true, gRandom := .tRandom3 0 } else w

/-- A new run loader on a folder named after the task, with its header made;
it becomes the current run loader when there is none yet. -/
def makeRunLoader (name : String) (w : Host) : Host :=
  let rl : AliRunLoader := { folder := name, header := some { genEventHeader := none } }
  { w with runLoader := match w.runLoader with
                        | none => some rl
                        | some cur => some cur }

/-- Registration of the output collection: unless the input event has an
object named `fMCParticlesName`, a collection of capacity 1000 is created,
named, bound to `fMCParticles` and added to the input event. -/
def registerMCParticles (t : AliFastSimulationTask) (w : Host) :
    AliFastSimulationTask × Host :=
  if (w.FindListObject t.fMCParticlesName).isNone then
    let arr := (TClonesArray.new 1000).SetName t.fMCParticlesName
    ({ t with fMCParticles := some arr }, w.AddObject (.clonesArray arr.name))
  else (t, w)

/-- Registration of the stack: it is added to the input event unless an object
of its name is there. -/
def registerStack (st : AliStack) (w : Host) : Host :=
  if (w.FindListObject st.GetName).isNone then w.AddObject (.stack st.GetName) else w

/-- Exec only once: make the simulation context, configure the generator,
build the run loader with header and stack, bind the stack to the task and the
generator, initialise the generator, and register the output collection and
the stack in the input event. Calling a method of the null generator fails;
otherwise the result is `kTRUE`. -/
def ExecOnce (t : AliFastSimulationTask) (w : Host) :
    Option (Bool × AliFastSimulationTask × Host) :=
  let w := makeContext w
  match t.fGen with
  | none => none
  | some g =>
    let g := g.SetRandom w.gRandom
    let g := if g.isPythia then g.SetEventListRange 0 1 else g
    let w := makeRunLoader t.name w
    let st : AliStack := { nprimary := 0, particles := [] }
    let t := { t with fStack := some st }
    let g := g.SetStack
    let g := g.Init
    let t := { t with fGen := some g }
    let r := registerMCParticles t w
    some (true, r.1, registerStack st r.2)

/-- Body of the loop over the primaries: a null particle is skipped, any other
is copied to slot `nParticles` with its stack index as label and its
first-mother index as mother. -/
def copyPrimary (st : AliStack) (acc : TClonesArray × Nat) (i : Nat) : TClonesArray × Nat :=
  match st.Particle i with
  | none => acc
  | some part =>
    let mcpart := AliMCParticle.new part (i : Int)
    let mcpart := mcpart.SetMother part.GetFirstMother
    (acc.1.constructAt acc.2 mcpart, acc.2 + 1)

/-- The loop `for (i = 0; i < nprim; i++)` of `Run`, from `nParticles = 0`. -/
def copyPrimaries (st : AliStack) (arr : TClonesArray) : TClonesArray × Nat :=
  (List.range st.GetNprimary.toNat).foldl (copyPrimary st) (arr, 0)

/-- Get PYTHIA info (pt-hard, x-section, trials) and fill the histograms:
nothing without diagnostics, nothing when the generator event header is not of
the PYTHIA kind. -/
def FillPythiaHistograms (t : AliFastSimulationTask) (w : Host) :
    Option (AliFastSimulationTask × Host) :=
  if !t.fQAhistos then some (t, w)
  else
    match w.runLoader with
    | none => none
    | some rl =>
      match rl.header with
      | none => none
      | some hdr =>
        match hdr.genEventHeader with
        | some (.pythia xsec trials pthard) =>
          match t.fHistXsection with
          | none => none
          | some hX =>
            match t.fHistTrials with
            | none => none
            | some hT =>
              match t.fHistPtHard with
              | none => none
              | some hP =>
                some ({ t with fHistXsection := some (hX.Fill (1/2) xsec)
                               fHistTrials := some (hT.Fill (1/2) (trials : ℚ))
                               fHistPtHard := some (hP.Fill pthard 1) }, w)
        | _ => some (t, w)

/-- Run simulation: clear the output collection, reset the stack, generate one
event, copy its primaries, fill the diagnostics. -/
def Run (t : AliFastSimulationTask) (w : Host) : Option (AliFastSimulationTask × Host) :=
  match t.fMCParticles with
  | none => none
  | some arr =>
    let arr := arr.Clear
    match t.fStack with
    | none => none
    | some st =>
      let st := st.Reset
      match t.fGen with
      | none => none
      | some g =>
        let (g, st, w) := g.Generate st w
        let (arr, _) := copyPrimaries st arr
        FillPythiaHistograms
          { t with fMCParticles := some arr, fStack := some st, fGen := some g } w

/-- Execute per event, with the one-time setup and the per-event step as given:
the setup is called while `fIsInit` is false and its result stored in
`fIsInit`; the event is processed only when `fIsInit` holds afterwards. -/
def UserExecWith
    (execOnce : AliFastSimulationTask → Host → Option (Bool × AliFastSimulationTask × Host))
    (run : AliFastSimulationTask → Host → Option (AliFastSimulationTask × Host))
    (t : AliFastSimulationTask) (w : Host) : Option (AliFastSimulationTask × Host) :=
  let init : Option (AliFastSimulationTask × Host) :=
    if !t.fIsInit then
      match execOnce t w with
      | none => none
      | some (ok, t1, w1) => some ({ t1 with fIsInit := ok }, w1)
    else some (t, w)
  match init with
  | none => none
  | some (t, w) => if !t.fIsInit then some (t, w) else run t w

/-- Execute per event: `UserExec` with the task's own `ExecOnce` and `Run`. -/
def UserExec (t : AliFastSimulationTask) (w : Host) : Option (AliFastSimulationTask × Host) :=
  UserExecWith ExecOnce Run t w

end AliFastSimulationTask

/-! ## Definitions used to state the claims -/

/-- The stack a generated event leaves behind when pushed on a reset stack. -/
def GenEvent.stack (ev : GenEvent) : AliStack :=
  { nprimary := ev.nprimary, particles := ev.particles }

/-- Number of primary slots of a stack, as a natural number. -/
def AliStack.primarySlots (s : AliStack) : Nat := s.GetNprimary.toNat

/-- Number of null entries among the primary slots. -/
def AliStack.nullPrimaries (s : AliStack) : Nat :=
  ((List.range s.primarySlots).filter (fun i => (s.Particle i).isNone)).length

/-- Stack indices of the non-null primaries, ascending. -/
def AliStack.nonNullIndices (s : AliStack) : List Nat :=
  (List.range s.primarySlots).filter (fun i => (s.Particle i).isSome)

/-- The record expected for the particle `p` found at stack index `i`. -/
def recordOf (i : Nat) (p : TParticle) : AliMCParticle :=
  { particle := p, label := (i : Int), mother := p.firstMother }

/-- The records expected from a stack: one per non-null primary, in ascending
stack-index order. -/
def AliStack.expectedRecords (s : AliStack) : List AliMCParticle :=
  (List.range s.primarySlots).filterMap (fun i => (s.Particle i).map (recordOf i))

/-- There is a current run loader and it has a run header. -/
def Host.hasHeader (w : Host) : Bool :=
  match w.runLoader with
  | some rl => rl.header.isSome
  | none => false

/-- The generator event header of the current run header, if any. -/
def Host.GenEventHeader (w : Host) : Option AliGenEventHeader :=
  match w.runLoader with
  | some rl =>
    match rl.header with
    | some hdr => hdr.genEventHeader
    | none => none
  | none => none

namespace AliFastSimulationTask

/-- Diagnostics can be filled without touching a null pointer: either they are
off, or the run header and the three histograms exist. -/
def diagReady (t : AliFastSimulationTask) (w : Host) : Bool :=
  !t.fQAhistos ||
    (w.hasHeader && t.fHistXsection.isSome && t.fHistTrials.isSome && t.fHistPtHard.isSome)

/-- The records currently held by the output collection (empty when the
collection is not bound). -/
def outputCont (t : AliFastSimulationTask) : List (Option AliMCParticle) :=
  match t.fMCParticles with
  | some arr => arr.cont
  | none => []

/-- The task after the three fills of `FillPythiaHistograms`. -/
def filled (t : AliFastSimulationTask) (hX : TProfile) (hT hP : TH1F) (xsec : ℚ) (trials : Int)
    (pthard : ℚ) : AliFastSimulationTask :=
  { t with fHistXsection := some (hX.Fill (1/2) xsec)
           fHistTrials := some (hT.Fill (1/2) (trials : ℚ))
           fHistPtHard := some (hP.Fill pthard 1) }

/-- The task handed to `FillPythiaHistograms` at the end of `Run`. -/
def afterCopy (t : AliFastSimulationTask) (arr : TClonesArray) (g : AliGenerator) :
    AliFastSimulationTask :=
  { t with fMCParticles := some (copyPrimaries (g.produce g.eventNo).stack arr.Clear).1
           fStack := some (g.produce g.eventNo).stack
           fGen := some { g with eventNo := g.eventNo + 1 } }

end AliFastSimulationTask

/-- Every record's mother index is negative or the slot of a record written
earlier into the collection. -/
def MotherLinksResolved (cont : List (Option AliMCParticle)) : Prop :=
  ∀ (k : Nat) (r : AliMCParticle), cont[k]? = some (some r) →
    r.mother < 0 ∨ ∃ j : Nat, j < k ∧ r.mother = (j : Int)

/-- The bin array covers underflow, the axis bins and overflow. -/
def TH1F.binsAllocated (h : TH1F) : Prop := h.bins.length = h.nbins + 2

/-- A histogram with the single bin `[0, 1)`, as created for the trials. -/
def TH1F.singleBin (h : TH1F) : Prop :=
  h.nbins = 1 ∧ h.xlow = 0 ∧ h.xup = 1 ∧ h.bins.length = 3

/-- A profile with the single bin `[0, 1)`, as created for the cross-section. -/
def TProfile.singleBin (h : TProfile) : Prop :=
  h.nbins = 1 ∧ h.xlow = 0 ∧ h.xup = 1 ∧ h.sumY.length = 3 ∧ h.binEntries.length = 3

/-- The bin an entry at `x` goes to, `TH1::FindBin`. -/
def TH1F.FindBin (h : TH1F) (x : ℚ) : Nat := TAxisFindBin h.nbins h.xlow h.xup x

/-- Lookup by name in an object list. -/
def findByName (objs : List ListObject) (name : String) : Option ListObject :=
  objs.find? (fun o => o.GetName == name)

/-- An object list after registering `o` unless its name is taken. -/
def registerUnlessPresent (objs : List ListObject) (o : ListObject) : List ListObject :=
  if (findByName objs o.GetName).isNone then objs ++ [o] else objs

/-- Names of an object list. -/
def objectNames (objs : List ListObject) : List String := objs.map ListObject.GetName

/-- The host's `n` consecutive `UserExec` calls, stopping at a failure. -/
def userExecs : Nat → AliFastSimulationTask × Host → Option (AliFastSimulationTask × Host)
  | 0, s => some s
  | n + 1, s => (AliFastSimulationTask.UserExec s.1 s.2).bind (userExecs n)

/-- The object list after both registrations of `ExecOnce`. -/
def registered (objs : List ListObject) (mcName : String) : List ListObject :=
  registerUnlessPresent (registerUnlessPresent objs (.clonesArray mcName)) (.stack "AliStack")

/-- The two callbacks the host framework invokes on the task. -/
inductive HostCall where
  | createOutputObjects
  | exec
  deriving DecidableEq

/-- One callback. -/
def hostCall (c : HostCall) (s : AliFastSimulationTask × Host) :
    Option (AliFastSimulationTask × Host) :=
  match c with
  | .createOutputObjects => some (AliFastSimulationTask.UserCreateOutputObjects s.1 s.2)
  | .exec => AliFastSimulationTask.UserExec s.1 s.2

/-- A sequence of callbacks, stopping at a failure. -/
def hostCalls : List HostCall → AliFastSimulationTask × Host →
    Option (AliFastSimulationTask × Host)
  | [], s => some s
  | c :: cs, s => (hostCall c s).bind (hostCalls cs)

/-- The diagnostics state of a task together with what the host has received
from it: the flag, the three histogram references, the output list, the
declared output slots, and the host's opened files and posted outputs. -/
def diagState (s : AliFastSimulationTask × Host) :
    Bool × Option TH1F × Option TProfile × Option TH1F × Option (List String) × List Nat ×
      List Nat × List Nat :=
  (s.1.fQAhistos, s.1.fHistTrials, s.1.fHistXsection, s.1.fHistPtHard, s.1.fOutput,
    s.1.outputSlots, s.2.openedFiles, s.2.posted)

/-! ## Sample data -/

/-- Sample events: a three-slot stack with a null middle entry and PYTHIA
metadata, then a one-particle event with a header of another kind, then empty
events. -/
def sampleEvents : Nat → GenEvent
  | 0 => { nprimary := 3
           particles := [some ⟨2212, 10, -1⟩, none, some ⟨211, 12, 1⟩]
           header := some (.pythia (5/2) 7 (81/2)) }
  | 1 => { nprimary := 1
           particles := [some ⟨22, 20, -1⟩]
           header := some (.other "cocktail") }
  | _ => { nprimary := 0, particles := [], header := none }

/-- A generator yielding `sampleEvents`. -/
def sampleGen : AliGenerator :=
  { isPythia := true, random := none, eventListRange := none, stackBound := false,
    initDone := false, eventNo := 0, produce := sampleEvents }

/-- A host before any setup, with an empty input event. -/
def freshHost : Host :=
  { gAlice := false, gRandom := .default, runLoader := none, inputEvent := [],
    openedFiles := [], posted := [] }

/-- A task with diagnostics and the sample generator, after
`UserCreateOutputObjects`. -/
def sampleTask : AliFastSimulationTask × Host :=
  AliFastSimulationTask.UserCreateOutputObjects
    { AliFastSimulationTask.new "FastSim" true with fGen := some sampleGen } freshHost

/-- The sample task after its one-time setup. -/
def sampleReady : AliFastSimulationTask × Host :=
  match AliFastSimulationTask.ExecOnce sampleTask.1 sampleTask.2 with
  | some (_, t, w) => (t, w)
  | none => sampleTask

/-- Events whose only primaries point to earlier stack slots, without nulls. -/
def chainEvents : Nat → GenEvent :=
  fun _ => { nprimary := 3
             particles := [some ⟨2212, 1, -1⟩, some ⟨211, 2, 0⟩, some ⟨-211, 3, 0⟩]
             header := none }

/-- The sample task after setup, bound to a generator yielding `chainEvents`. -/
def chainReady : AliFastSimulationTask × Host :=
  ({ sampleReady.1 with fGen := some { sampleGen with produce := chainEvents } }, sampleReady.2)

/-- Events with 1001 non-null primaries. -/
def crowdedEvents : Nat → GenEvent :=
  fun _ => { nprimary := 1001
             particles := List.replicate 1001 (some ⟨211, 0, -1⟩)
             header := none }

/-- The sample task after setup, bound to a generator yielding `crowdedEvents`. -/
def crowdedReady : AliFastSimulationTask × Host :=
  ({ sampleReady.1 with fGen := some { sampleGen with produce := crowdedEvents } }, sampleReady.2)

/-- The host in the middle of the first `Run` of the sample task, after
`Generate()` published the PYTHIA header of the first sample event. -/
def sampleHostWithPythiaHeader : Host :=
  sampleReady.2.SetGenEventHeader (some (.pythia (5/2) 7 (81/2)))

/-- The sample task after setup, about to generate the second sample event,
whose header is not of the PYTHIA kind. -/
def sampleSecond : AliFastSimulationTask × Host :=
  ({ sampleReady.1 with fGen := some { sampleGen with eventNo := 1 } }, sampleReady.2)

/-- The sample host with an object named like the output collection already in
the input event. -/
def occupiedHost : Host := { sampleTask.2 with inputEvent := [.other "GenParticles"] }

/-- A task without diagnostics, bound to the sample generator. -/
def quietTask : AliFastSimulationTask :=
  { AliFastSimulationTask.new "FastSim" false with fGen := some sampleGen }

/-! ## Lemmas -/

namespace AliFastSimulationTask

theorem copyPrimary_none (st : AliStack) (acc : TClonesArray × Nat) (i : Nat)
    (h : st.Particle i = none) : copyPrimary st acc i = acc := by
  simp [copyPrimary, h]

theorem copyPrimary_some (st : AliStack) (acc : TClonesArray × Nat) (i : Nat) (p : TParticle)
    (h : st.Particle i = some p) :
    copyPrimary st acc i = (acc.1.constructAt acc.2 (recordOf i p), acc.2 + 1) := by
  simp [copyPrimary, h, recordOf, AliMCParticle.new, AliMCParticle.SetMother,
    TParticle.GetFirstMother]

theorem constructAt_cont_append (a : TClonesArray) (obj : AliMCParticle) :
    (a.constructAt a.cont.length obj).cont = a.cont ++ [some obj] := by
  simp [TClonesArray.constructAt]

theorem constructAt_name (a : TClonesArray) (idx : Nat) (obj : AliMCParticle) :
    (a.constructAt idx obj).name = a.name := rfl

theorem constructAt_capacity_ge (a : TClonesArray) (idx : Nat) (obj : AliMCParticle) :
    a.capacity ≤ (a.constructAt idx obj).capacity ∧ idx < (a.constructAt idx obj).capacity := by
  simp only [TClonesArray.constructAt, TClonesArray.GrowBy]
  split_ifs with h
  · constructor
    · exact le_trans (Nat.le_add_right _ _) (le_max_right _ _)
    · exact lt_of_lt_of_le (Nat.lt_succ_self idx) (le_max_left _ _)
  · constructor
    · exact le_rfl
    · omega

/-- Invariant of the copy loop: started with `nParticles` equal to the number
of slots in use, it appends the expected records of the visited indices. -/
theorem foldl_copyPrimary (st : AliStack) (l : List Nat) (a : TClonesArray) (n : Nat)
    (h : a.cont.length = n) :
    let r := l.foldl (copyPrimary st) (a, n)
    r.1.cont = a.cont ++ (l.filterMap (fun i => (st.Particle i).map (recordOf i))).map some
      ∧ r.2 = r.1.cont.length ∧ r.1.name = a.name ∧ a.capacity ≤ r.1.capacity
      ∧ (a.cont.length ≤ a.capacity → r.1.cont.length ≤ r.1.capacity) := by
  induction l generalizing a n with
  | nil => simp [h]
  | cons i l ih =>
    cases hp : st.Particle i with
    | none =>
      simp only [List.foldl_cons, copyPrimary_none st (a, n) i hp]
      simpa [List.filterMap_cons, hp] using ih a n h
    | some p =>
      simp only [List.foldl_cons, copyPrimary_some st (a, n) i p hp]
      subst h
      have hc := constructAt_cont_append a (recordOf i p)
      have hcap := constructAt_capacity_ge a a.cont.length (recordOf i p)
      have := ih (a.constructAt a.cont.length (recordOf i p)) (a.cont.length + 1)
        (by simp [hc])
      simp only [hc, constructAt_name] at this
      obtain ⟨h1, h2, h3, h4, h5⟩ := this
      refine ⟨?_, h2, h3, le_trans hcap.1 h4, ?_⟩
      · simp [List.filterMap_cons, hp, h1]
      · intro _
        apply h5
        simp only [List.length_append, List.length_singleton]
        exact hcap.2

theorem copyPrimaries_spec (st : AliStack) (a : TClonesArray) (h : a.cont = []) :
    (copyPrimaries st a).1.cont = st.expectedRecords.map some
      ∧ (copyPrimaries st a).1.name = a.name
      ∧ a.capacity ≤ (copyPrimaries st a).1.capacity
      ∧ (copyPrimaries st a).1.cont.length ≤ (copyPrimaries st a).1.capacity := by
  have := foldl_copyPrimary st (List.range st.GetNprimary.toNat) a 0 (by simp [h])
  simp only [h, List.nil_append, List.length_nil, Nat.zero_le, true_implies] at this
  exact ⟨this.1, this.2.2.1, this.2.2.2.1, this.2.2.2.2⟩

theorem expectedRecords_length (s : AliStack) :
    s.expectedRecords.length = s.nonNullIndices.length
      ∧ s.nonNullIndices.length + s.nullPrimaries = s.primarySlots := by
  unfold AliStack.expectedRecords AliStack.nonNullIndices AliStack.nullPrimaries
  have key : ∀ l : List Nat,
      (l.filterMap (fun i => (s.Particle i).map (recordOf i))).length
        = (l.filter (fun i => (s.Particle i).isSome)).length
      ∧ (l.filter (fun i => (s.Particle i).isSome)).length
        + (l.filter (fun i => (s.Particle i).isNone)).length = l.length := by
    intro l
    induction l with
    | nil => simp
    | cons i l ih =>
      cases hp : s.Particle i <;>
        simp [List.filterMap_cons, List.filter_cons, hp, ih.1] <;> omega
  have := key (List.range s.primarySlots)
  simpa using this

theorem Fill_off (t : AliFastSimulationTask) (w : Host) (h : t.fQAhistos = false) :
    FillPythiaHistograms t w = some (t, w) := by
  simp [FillPythiaHistograms, h]

theorem Fill_pythia (t : AliFastSimulationTask) (w : Host) (hX : TProfile) (hT hP : TH1F)
    (xsec : ℚ) (trials : Int) (pthard : ℚ)
    (hq : t.fQAhistos = true) (hh : w.GenEventHeader = some (.pythia xsec trials pthard))
    (h1 : t.fHistXsection = some hX) (h2 : t.fHistTrials = some hT)
    (h3 : t.fHistPtHard = some hP) :
    FillPythiaHistograms t w = some (t.filled hX hT hP xsec trials pthard, w) := by
  unfold Host.GenEventHeader at hh
  cases hrl : w.runLoader with
  | none => simp [hrl] at hh
  | some rl =>
    cases hhd : rl.header with
    | none => simp [hrl, hhd] at hh
    | some hdr =>
      simp only [hrl, hhd] at hh
      simp [FillPythiaHistograms, hq, hrl, hhd, hh, h1, h2, h3, filled]

theorem Fill_not_pythia (t : AliFastSimulationTask) (w : Host)
    (hh : w.hasHeader = true) (hn : ∀ x n p, w.GenEventHeader ≠ some (.pythia x n p)) :
    FillPythiaHistograms t w = some (t, w) := by
  unfold Host.hasHeader at hh
  unfold Host.GenEventHeader at hn
  cases hrl : w.runLoader with
  | none => simp [hrl] at hh
  | some rl =>
    cases hhd : rl.header with
    | none => simp [hrl, hhd] at hh
    | some hdr =>
      simp only [hrl, hhd] at hn
      cases hq : t.fQAhistos with
      | false => exact Fill_off t w hq
      | true =>
        cases hg : hdr.genEventHeader with
        | none => simp [FillPythiaHistograms, hq, hrl, hhd, hg]
        | some gh =>
          cases gh with
          | pythia x n p => exact absurd hg (hn x n p)
          | other k => simp [FillPythiaHistograms, hq, hrl, hhd, hg]

/-- What `FillPythiaHistograms` can do: fail, change nothing, or perform the
three fills. -/
theorem Fill_cases (t : AliFastSimulationTask) (w : Host) :
    FillPythiaHistograms t w = none ∨ FillPythiaHistograms t w = some (t, w) ∨
      ∃ hX hT hP xsec trials pthard, t.fQAhistos = true ∧
        w.GenEventHeader = some (.pythia xsec trials pthard) ∧
        t.fHistXsection = some hX ∧ t.fHistTrials = some hT ∧ t.fHistPtHard = some hP ∧
        FillPythiaHistograms t w = some (t.filled hX hT hP xsec trials pthard, w) := by
  cases hq : t.fQAhistos with
  | false => exact Or.inr (Or.inl (Fill_off t w hq))
  | true =>
    cases hrl : w.runLoader with
    | none => left; simp [FillPythiaHistograms, hq, hrl]
    | some rl =>
      cases hhd : rl.header with
      | none => left; simp [FillPythiaHistograms, hq, hrl, hhd]
      | some hdr =>
        cases hg : hdr.genEventHeader with
        | none => right; left; simp [FillPythiaHistograms, hq, hrl, hhd, hg]
        | some gh =>
          cases gh with
          | other k => right; left; simp [FillPythiaHistograms, hq, hrl, hhd, hg]
          | pythia x n p =>
            cases h1 : t.fHistXsection with
            | none => left; simp [FillPythiaHistograms, hq, hrl, hhd, hg, h1]
            | some hX =>
              cases h2 : t.fHistTrials with
              | none => left; simp [FillPythiaHistograms, hq, hrl, hhd, hg, h1, h2]
              | some hT =>
                cases h3 : t.fHistPtHard with
                | none => left; simp [FillPythiaHistograms, hq, hrl, hhd, hg, h1, h2, h3]
                | some hP =>
                  right; right
                  refine ⟨hX, hT, hP, x, n, p, rfl, ?_, rfl, rfl, rfl, ?_⟩
                  · simp [Host.GenEventHeader, hrl, hhd, hg]
                  · have hh : w.GenEventHeader = some (.pythia x n p) := by
                      simp [Host.GenEventHeader, hrl, hhd, hg]
                    exact Fill_pythia t w hX hT hP x n p hq hh h1 h2 h3

/-- With the diagnostics ready, `FillPythiaHistograms` returns, leaving the
host and every field but the three histograms as they are, and the
diagnostics ready. -/
theorem Fill_ready (t : AliFastSimulationTask) (w : Host) (h : t.diagReady w = true) :
    ∃ t', FillPythiaHistograms t w = some (t', w) ∧ t'.diagReady w = true ∧
      t'.fMCParticles = t.fMCParticles ∧ t'.fStack = t.fStack ∧ t'.fGen = t.fGen ∧
      t'.fIsInit = t.fIsInit ∧ t'.fQAhistos = t.fQAhistos := by
  rcases Fill_cases t w with hn | hs | ⟨hX, hT, hP, x, n, p, hq, _, h1, h2, h3, hf⟩
  · exfalso
    cases hq : t.fQAhistos with
    | false => rw [Fill_off t w hq] at hn; cases hn
    | true =>
      simp only [diagReady, hq, Bool.not_true, Bool.false_or, Bool.and_eq_true] at h
      obtain ⟨⟨⟨hh, h1⟩, h2⟩, h3⟩ := h
      unfold Host.hasHeader at hh
      cases hrl : w.runLoader with
      | none => simp [hrl] at hh
      | some rl =>
        cases hhd : rl.header with
        | none => simp [hrl, hhd] at hh
        | some hdr =>
          obtain ⟨hX, h1⟩ := Option.isSome_iff_exists.mp h1
          obtain ⟨hT, h2⟩ := Option.isSome_iff_exists.mp h2
          obtain ⟨hP, h3⟩ := Option.isSome_iff_exists.mp h3
          cases hg : hdr.genEventHeader with
          | none => simp [FillPythiaHistograms, hq, hrl, hhd, hg] at hn
          | some gh =>
            cases gh <;> simp [FillPythiaHistograms, hq, hrl, hhd, hg, h1, h2, h3] at hn
  · exact ⟨t, hs, h, rfl, rfl, rfl, rfl, rfl⟩
  · refine ⟨_, hf, ?_, rfl, rfl, rfl, rfl, rfl⟩
    simp only [diagReady, Bool.or_eq_true, Bool.and_eq_true] at h ⊢
    rcases h with h | h
    · simp [hq] at h
    · right
      simp [filled, h.1.1.1]

theorem hasHeader_SetGenEventHeader (w : Host) (h : Option AliGenEventHeader) :
    (w.SetGenEventHeader h).hasHeader = w.hasHeader := by
  unfold Host.SetGenEventHeader Host.hasHeader
  cases hrl : w.runLoader with
  | none => simp [hrl]
  | some rl =>
    cases hhd : rl.header with
    | none => simp [hrl, hhd]
    | some hdr => simp [hhd]

theorem GenEventHeader_SetGenEventHeader (w : Host) (h : Option AliGenEventHeader)
    (hh : w.hasHeader = true) : (w.SetGenEventHeader h).GenEventHeader = h := by
  unfold Host.hasHeader at hh
  unfold Host.SetGenEventHeader Host.GenEventHeader
  cases hrl : w.runLoader with
  | none => simp [hrl] at hh
  | some rl =>
    cases hhd : rl.header with
    | none => simp [hrl, hhd] at hh
    | some hdr => simp [hhd]

theorem frame_SetGenEventHeader (w : Host) (h : Option AliGenEventHeader) :
    (w.SetGenEventHeader h).inputEvent = w.inputEvent ∧
      (w.SetGenEventHeader h).posted = w.posted ∧
      (w.SetGenEventHeader h).gAlice = w.gAlice := by
  unfold Host.SetGenEventHeader
  cases hrl : w.runLoader with
  | none => simp
  | some rl =>
    cases hhd : rl.header with
    | none => simp [hhd]
    | some hdr => simp [hhd]

/-- With collection, stack and generator bound, `Run` is the diagnostics step
applied to the copied event. -/
theorem Run_bound (t : AliFastSimulationTask) (w : Host) (arr : TClonesArray) (st : AliStack)
    (g : AliGenerator) (hmc : t.fMCParticles = some arr) (hst : t.fStack = some st)
    (hg : t.fGen = some g) :
    Run t w = FillPythiaHistograms (t.afterCopy arr g)
      (w.SetGenEventHeader (g.produce g.eventNo).header) := by
  simp [Run, hmc, hst, hg, AliGenerator.Generate, AliStack.Reset, afterCopy, GenEvent.stack]

/-- Total correctness of `Run`: when everything it dereferences is bound, it
returns; the output collection then holds exactly the expected records of the
generated stack, and the task is ready for the next call. -/
theorem Run_ready (t : AliFastSimulationTask) (w : Host) (arr : TClonesArray) (st : AliStack)
    (g : AliGenerator) (hmc : t.fMCParticles = some arr) (hst : t.fStack = some st)
    (hg : t.fGen = some g) (hd : t.diagReady w = true) :
    ∃ t' arr', Run t w = some (t', w.SetGenEventHeader (g.produce g.eventNo).header) ∧
      t'.fMCParticles = some arr' ∧
      arr'.cont = (g.produce g.eventNo).stack.expectedRecords.map some ∧
      arr'.name = arr.name ∧ arr.capacity ≤ arr'.capacity ∧
      arr'.cont.length ≤ arr'.capacity ∧
      t'.fStack = some (g.produce g.eventNo).stack ∧
      t'.fGen = some { g with eventNo := g.eventNo + 1 } ∧
      t'.diagReady (w.SetGenEventHeader (g.produce g.eventNo).header) = true ∧
      t'.fIsInit = t.fIsInit ∧ t'.fQAhistos = t.fQAhistos := by
  rw [Run_bound t w arr st g hmc hst hg]
  have hd' : (t.afterCopy arr g).diagReady
      (w.SetGenEventHeader (g.produce g.eventNo).header) = true := by
    simpa [diagReady, afterCopy, hasHeader_SetGenEventHeader] using hd
  obtain ⟨t', hf, hr, h1, h2, h3, h4, h5⟩ := Fill_ready _ _ hd'
  have hc := copyPrimaries_spec (g.produce g.eventNo).stack arr.Clear rfl
  exact ⟨t', _, hf, h1, hc.1, hc.2.1, hc.2.2.1, hc.2.2.2, h2, h3, hr, h4, h5⟩

theorem expectedRecords_get (s : AliStack) (l : List Nat) :
    ∀ (k i : Nat), (l.filter (fun i => (s.Particle i).isSome))[k]? = some i →
      ∃ p, s.Particle i = some p ∧
        (l.filterMap (fun i => (s.Particle i).map (recordOf i)))[k]? = some (recordOf i p) := by
  induction l with
  | nil => intro k i h; simp at h
  | cons j l ih =>
    intro k i h
    cases hp : s.Particle j with
    | none =>
      simp only [List.filter_cons, hp, Option.isSome_none, Bool.false_eq_true, if_false] at h
      simpa [List.filterMap_cons, hp] using ih k i h
    | some p =>
      simp only [List.filter_cons, hp, Option.isSome_some, if_true] at h
      cases k with
      | zero =>
        simp only [List.getElem?_cons_zero, Option.some.injEq] at h
        subst h
        exact ⟨p, hp, by simp [List.filterMap_cons, hp]⟩
      | succ k =>
        simp only [List.getElem?_cons_succ] at h
        simpa [List.filterMap_cons, hp] using ih k i h

end AliFastSimulationTask

theorem AliFastSimulationTask.expectedRecords_replicate (n : Nat) (p : TParticle) :
    (AliStack.mk (n : Int) (List.replicate n (some p))).expectedRecords.length = n := by
  have hl := AliFastSimulationTask.expectedRecords_length
    (AliStack.mk (n : Int) (List.replicate n (some p)))
  have hall : (AliStack.mk (n : Int) (List.replicate n (some p))).nonNullIndices
      = List.range n := by
    unfold AliStack.nonNullIndices
    have hn : (AliStack.mk (n : Int) (List.replicate n (some p))).primarySlots = n := by
      simp [AliStack.primarySlots, AliStack.GetNprimary]
    rw [hn]
    apply List.filter_eq_self.mpr
    intro i hi
    have hi' : i < n := List.mem_range.mp hi
    simp [AliStack.Particle, List.getElem?_replicate, hi']
  rw [hl.1, hall, List.length_range]

theorem addAt_length (l : List ℚ) (i : Nat) (w : ℚ) : (addAt l i w).length = l.length := by
  induction l generalizing i with
  | nil => rfl
  | cons x xs ih => cases i <;> simp [addAt, ih]

theorem addAt_getD_self (l : List ℚ) (i : Nat) (w : ℚ) (h : i < l.length) :
    (addAt l i w).getD i 0 = l.getD i 0 + w := by
  induction l generalizing i with
  | nil => simp at h
  | cons x xs ih =>
    cases i with
    | zero => simp [addAt]
    | succ i =>
      have h' : i < xs.length := by simpa using h
      simpa [addAt] using ih i h'

theorem addAt_getD_other (l : List ℚ) (i j : Nat) (w : ℚ) (h : j ≠ i) :
    (addAt l i w).getD j 0 = l.getD j 0 := by
  induction l generalizing i j with
  | nil => simp [addAt]
  | cons x xs ih =>
    cases i with
    | zero =>
      cases j with
      | zero => exact absurd rfl h
      | succ j => simp [addAt]
    | succ i =>
      cases j with
      | zero => simp [addAt]
      | succ j =>
        have h' : j ≠ i := fun e => h (by rw [e])
        simpa [addAt] using ih i j h'

theorem TAxisFindBin_unit_half : TAxisFindBin 1 0 1 (1/2) = 1 := by
  have hf : ⌊((1 : ℕ) : ℚ) * ((1/2 : ℚ) - 0) / (1 - 0)⌋ = 0 := by
    rw [Int.floor_eq_iff]
    norm_num
  unfold TAxisFindBin
  rw [hf]
  norm_num

theorem TAxisFindBin_le (nbins : Nat) (xmin xmax x : ℚ) :
    TAxisFindBin nbins xmin xmax x ≤ nbins + 1 := by
  unfold TAxisFindBin
  split_ifs with h1 h2
  · omega
  · have hlo : xmin ≤ x := not_lt.mp h1
    have hx : x < xmax := h2
    have hpos : 0 < xmax - xmin := by linarith
    have hq : (nbins : ℚ) * (x - xmin) / (xmax - xmin) ≤ (nbins : ℚ) := by
      rw [div_le_iff₀ hpos]
      have : (0 : ℚ) ≤ (nbins : ℚ) := Nat.cast_nonneg nbins
      nlinarith
    have hfl : ⌊(nbins : ℚ) * (x - xmin) / (xmax - xmin)⌋ ≤ (nbins : ℤ) := by
      have := Int.floor_le ((nbins : ℚ) * (x - xmin) / (xmax - xmin))
      have h3 : ((⌊(nbins : ℚ) * (x - xmin) / (xmax - xmin)⌋ : ℤ) : ℚ) ≤ ((nbins : ℤ) : ℚ) := by
        push_cast
        linarith
      exact_mod_cast h3
    omega
  · omega

theorem findByName_isNone (objs : List ListObject) (n : String) :
    (findByName objs n).isNone = true ↔ n ∉ objectNames objs := by
  simp only [findByName, objectNames, List.find?_isSome, Option.isNone_iff_eq_none,
    List.find?_eq_none, List.mem_map, not_exists, not_and, beq_iff_eq]

theorem registerUnlessPresent_mem (objs : List ListObject) (o : ListObject) :
    o.GetName ∈ objectNames (registerUnlessPresent objs o) := by
  unfold registerUnlessPresent
  split_ifs with h
  · simp [objectNames]
  · rw [findByName_isNone] at h
    exact not_not.mp h

theorem registerUnlessPresent_mono (objs : List ListObject) (o : ListObject) (n : String)
    (h : n ∈ objectNames objs) : n ∈ objectNames (registerUnlessPresent objs o) := by
  unfold registerUnlessPresent
  split_ifs
  · simp only [objectNames, List.map_append, List.mem_append]
    exact Or.inl h
  · exact h

theorem registerUnlessPresent_nodup (objs : List ListObject) (o : ListObject)
    (h : (objectNames objs).Nodup) : (objectNames (registerUnlessPresent objs o)).Nodup := by
  unfold registerUnlessPresent
  split_ifs with hf
  · rw [findByName_isNone] at hf
    simp only [objectNames, List.map_append, List.map_cons, List.map_nil]
    rw [List.nodup_append]
    refine ⟨h, List.nodup_singleton _, ?_⟩
    intro a ha hb
    rw [List.mem_singleton] at hb
    subst hb
    exact hf ha
  · exact h

theorem registerUnlessPresent_present (objs : List ListObject) (o : ListObject)
    (h : o.GetName ∈ objectNames objs) : registerUnlessPresent objs o = objs := by
  unfold registerUnlessPresent
  rw [if_neg]
  rw [findByName_isNone]
  exact not_not.mpr h

namespace AliFastSimulationTask

theorem registerMCParticles_spec (t : AliFastSimulationTask) (w : Host) :
    (registerMCParticles t w).2.inputEvent
        = registerUnlessPresent w.inputEvent (.clonesArray t.fMCParticlesName) ∧
      (registerMCParticles t w).1.fMCParticles
        = (if (findByName w.inputEvent t.fMCParticlesName).isNone
            then some ((TClonesArray.new 1000).SetName t.fMCParticlesName)
            else t.fMCParticles) ∧
      (registerMCParticles t w).1 = { t with fMCParticles := (registerMCParticles t w).1.fMCParticles } ∧
      (registerMCParticles t w).2 = { w with inputEvent := (registerMCParticles t w).2.inputEvent } := by
  unfold registerMCParticles registerUnlessPresent Host.FindListObject findByName
  simp only [ListObject.GetName]
  split_ifs <;> simp [Host.AddObject, TClonesArray.SetName, TClonesArray.new]

theorem registerStack_spec (st : AliStack) (w : Host) :
    (registerStack st w).inputEvent = registerUnlessPresent w.inputEvent (.stack "AliStack") ∧
      registerStack st w = { w with inputEvent := (registerStack st w).inputEvent } := by
  unfold registerStack registerUnlessPresent Host.FindListObject findByName
  simp only [ListObject.GetName, AliStack.GetName]
  split_ifs <;> simp [Host.AddObject]

theorem makeContext_frame (w : Host) :
    (makeContext w).inputEvent = w.inputEvent ∧ (makeContext w).posted = w.posted ∧
      (makeContext w).openedFiles = w.openedFiles := by
  unfold makeContext
  split_ifs <;> simp

/-- With a generator bound, `ExecOnce` returns `kTRUE`; the input event's
object list has gone through the two registrations and the diagnostics are
untouched. -/
theorem ExecOnce_bound (t : AliFastSimulationTask) (w : Host) (g : AliGenerator)
    (hg : t.fGen = some g) :
    ∃ t1 w1, ExecOnce t w = some (true, t1, w1) ∧
      w1.inputEvent = registerUnlessPresent
        (registerUnlessPresent w.inputEvent (.clonesArray t.fMCParticlesName))
        (.stack "AliStack") ∧
      t1.fMCParticles = (if (findByName w.inputEvent t.fMCParticlesName).isNone
        then some ((TClonesArray.new 1000).SetName t.fMCParticlesName) else t.fMCParticles) ∧
      t1.fMCParticlesName = t.fMCParticlesName ∧ t1.fStack = some ⟨0, []⟩ ∧
      t1.fGen.isSome = true ∧ t1.fQAhistos = t.fQAhistos ∧ t1.fIsInit = t.fIsInit ∧
      t1.fHistTrials = t.fHistTrials ∧ t1.fHistXsection = t.fHistXsection ∧
      t1.fHistPtHard = t.fHistPtHard ∧ t1.fOutput = t.fOutput ∧
      t1.outputSlots = t.outputSlots ∧
      w1.posted = w.posted ∧ w1.openedFiles = w.openedFiles := by
  simp only [ExecOnce, hg]
  refine ⟨_, _, rfl, ?_⟩
  have hm := registerMCParticles_spec
    { t with fStack := some ⟨0, []⟩
             fGen := some ((if (g.SetRandom (makeContext w).gRandom).isPythia
               then (g.SetRandom (makeContext w).gRandom).SetEventListRange 0 1
               else g.SetRandom (makeContext w).gRandom).SetStack).Init }
    (makeRunLoader t.name (makeContext w))
  have hs := registerStack_spec ⟨0, []⟩ (registerMCParticles
    { t with fStack := some ⟨0, []⟩
             fGen := some ((if (g.SetRandom (makeContext w).gRandom).isPythia
               then (g.SetRandom (makeContext w).gRandom).SetEventListRange 0 1
               else g.SetRandom (makeContext w).gRandom).SetStack).Init }
    (makeRunLoader t.name (makeContext w))).2
  obtain ⟨hm1, hm2, hm3, hm4⟩ := hm
  obtain ⟨hs1, hs2⟩ := hs
  have hw := makeContext_frame w
  refine ⟨?_, ?_, ?_⟩
  · rw [hs1, hm1]
    simp [makeRunLoader, hw.1]
  · rw [hm2]
    simp [makeRunLoader, hw.1]
  · rw [hm3, hs2, hm4]
    simp [makeRunLoader, hw.2.1, hw.2.2]

theorem frame_SetGenEventHeader_files (w : Host) (h : Option AliGenEventHeader) :
    (w.SetGenEventHeader h).openedFiles = w.openedFiles := by
  unfold Host.SetGenEventHeader
  cases hrl : w.runLoader with
  | none => simp
  | some rl =>
    cases hhd : rl.header with
    | none => simp [hhd]
    | some hdr => simp [hhd]

/-- What a returning `Run` leaves alone: the input event's object list, the
posted outputs, the flags and names of the task, and the histograms when the
diagnostics are off. -/
theorem Run_frame (t : AliFastSimulationTask) (w : Host) (t' : AliFastSimulationTask)
    (w' : Host) (h : Run t w = some (t', w')) :
    w'.inputEvent = w.inputEvent ∧ w'.posted = w.posted ∧ w'.openedFiles = w.openedFiles ∧
      t'.fIsInit = t.fIsInit ∧ t'.fQAhistos = t.fQAhistos ∧
      t'.fMCParticlesName = t.fMCParticlesName ∧ t'.fOutput = t.fOutput ∧
      t'.outputSlots = t.outputSlots ∧ t'.fGen.isSome = true ∧
      (t.fQAhistos = false → t'.fHistTrials = t.fHistTrials ∧
        t'.fHistXsection = t.fHistXsection ∧ t'.fHistPtHard = t.fHistPtHard) := by
  cases hmc : t.fMCParticles with
  | none => simp [Run, hmc] at h
  | some arr =>
    cases hst : t.fStack with
    | none => simp [Run, hmc, hst] at h
    | some st =>
      cases hg : t.fGen with
      | none => simp [Run, hmc, hst, hg] at h
      | some g =>
        rw [Run_bound t w arr st g hmc hst hg] at h
        have hw := frame_SetGenEventHeader w (g.produce g.eventNo).header
        have hw2 := frame_SetGenEventHeader_files w (g.produce g.eventNo).header
        rcases Fill_cases (t.afterCopy arr g)
            (w.SetGenEventHeader (g.produce g.eventNo).header) with
          hn | hs | ⟨hX, hT, hP, x, n, p, hq, _, _, _, _, hf⟩
        · rw [hn] at h; cases h
        · rw [hs] at h
          cases h
          exact ⟨hw.1, hw.2.1, hw2, rfl, rfl, rfl, rfl, rfl, rfl, fun _ => ⟨rfl, rfl, rfl⟩⟩
        · rw [hf] at h
          cases h
          refine ⟨hw.1, hw.2.1, hw2, rfl, rfl, rfl, rfl, rfl, rfl, ?_⟩
          intro hoff
          have : t.fQAhistos = true := hq
          rw [hoff] at this
          cases this

/-- A returning `UserExec` on an initialised task is `Run`; on a task not yet
initialised it is `ExecOnce` followed by `Run`. -/
theorem UserExec_cases (t : AliFastSimulationTask) (w : Host) (t' : AliFastSimulationTask)
    (w' : Host) (h : UserExec t w = some (t', w')) :
    (t.fIsInit = true ∧ Run t w = some (t', w')) ∨
    (t.fIsInit = false ∧ ∃ t1 w1, ExecOnce t w = some (true, t1, w1) ∧
      Run { t1 with fIsInit := true } w1 = some (t', w')) := by
  cases hi : t.fIsInit with
  | true =>
    left
    refine ⟨rfl, ?_⟩
    simpa [UserExec, UserExecWith, hi] using h
  | false =>
    right
    refine ⟨rfl, ?_⟩
    cases hg : t.fGen with
    | none => simp [UserExec, UserExecWith, hi, ExecOnce, hg] at h
    | some g =>
      obtain ⟨t1, w1, he, -⟩ := ExecOnce_bound t w g hg
      refine ⟨t1, w1, he, ?_⟩
      simpa [UserExec, UserExecWith, hi, he] using h

end AliFastSimulationTask

theorem registered_facts (objs : List ListObject) (mcName : String)
    (h : (objectNames objs).Nodup) :
    (objectNames (registered objs mcName)).Nodup ∧
      mcName ∈ objectNames (registered objs mcName) ∧
      "AliStack" ∈ objectNames (registered objs mcName) ∧
      registered (registered objs mcName) mcName = registered objs mcName := by
  have h1 := registerUnlessPresent_nodup objs (.clonesArray mcName) h
  have h2 := registerUnlessPresent_nodup _ (.stack "AliStack") h1
  have m1 : mcName ∈ objectNames (registered objs mcName) :=
    registerUnlessPresent_mono _ _ _ (registerUnlessPresent_mem objs (.clonesArray mcName))
  have m2 : "AliStack" ∈ objectNames (registered objs mcName) :=
    registerUnlessPresent_mem _ (.stack "AliStack")
  refine ⟨h2, m1, m2, ?_⟩
  show registerUnlessPresent (registerUnlessPresent (registered objs mcName) _) _ = _
  rw [registerUnlessPresent_present (registered objs mcName) (.clonesArray mcName) m1,
    registerUnlessPresent_present (registered objs mcName) (.stack "AliStack") m2]

/-- Invariant of the `UserExec` calls of a task started on the object list
`objs`: the list is still `objs`, or the task is initialised and the list is
the registered one. -/
theorem userExecs_inputEvent (objs : List ListObject) (mcName : String) (n : Nat) :
    ∀ s s' : AliFastSimulationTask × Host, userExecs n s = some s' →
      s.1.fMCParticlesName = mcName →
      (s.2.inputEvent = objs ∨ (s.1.fIsInit = true ∧ s.2.inputEvent = registered objs mcName)) →
      s'.1.fMCParticlesName = mcName ∧
      (s'.2.inputEvent = objs ∨
        (s'.1.fIsInit = true ∧ s'.2.inputEvent = registered objs mcName)) := by
  induction n with
  | zero =>
    intro s s' h hn hinv
    simp only [userExecs, Option.some.injEq] at h
    subst h
    exact ⟨hn, hinv⟩
  | succ n ih =>
    intro s s' h hn hinv
    simp only [userExecs] at h
    cases hu : AliFastSimulationTask.UserExec s.1 s.2 with
    | none => simp [hu] at h
    | some s1 =>
      simp only [hu, Option.some_bind] at h
      refine ih s1 s' h ?_ ?_
      · rcases AliFastSimulationTask.UserExec_cases s.1 s.2 s1.1 s1.2 hu with
          ⟨_, hr⟩ | ⟨_, t1, w1, he, hr⟩
        · rw [(AliFastSimulationTask.Run_frame _ _ _ _ hr).2.2.2.2.2.1, hn]
        · rw [(AliFastSimulationTask.Run_frame _ _ _ _ hr).2.2.2.2.2.1]
          cases hg : s.1.fGen with
          | none => simp [AliFastSimulationTask.ExecOnce, hg] at he
          | some g =>
            obtain ⟨t1', w1', he', -, -, hname, -⟩ :=
              AliFastSimulationTask.ExecOnce_bound s.1 s.2 g hg
            rw [he] at he'
            cases he'
            exact hname.trans hn
      · rcases AliFastSimulationTask.UserExec_cases s.1 s.2 s1.1 s1.2 hu with
          ⟨hi, hr⟩ | ⟨hi, t1, w1, he, hr⟩
        · have hf := AliFastSimulationTask.Run_frame _ _ _ _ hr
          rw [hf.1, hf.2.2.2.1]
          exact hinv
        · have hf := AliFastSimulationTask.Run_frame _ _ _ _ hr
          right
          refine ⟨hf.2.2.2.1, ?_⟩
          rw [hf.1]
          cases hg : s.1.fGen with
          | none => simp [AliFastSimulationTask.ExecOnce, hg] at he
          | some g =>
            obtain ⟨t1', w1', he', hev, -⟩ :=
              AliFastSimulationTask.ExecOnce_bound s.1 s.2 g hg
            rw [he] at he'
            cases he'
            rw [hev, hn]
            rcases hinv with h0 | ⟨h1, _⟩
            · rw [h0]; rfl
            · rw [hi] at h1; cases h1

theorem hostCall_diagState (c : HostCall) (s s' : AliFastSimulationTask × Host)
    (hq : s.1.fQAhistos = false) (h : hostCall c s = some s') : diagState s' = diagState s := by
  cases c with
  | createOutputObjects =>
    simp only [hostCall, AliFastSimulationTask.UserCreateOutputObjects, hq, Bool.not_false,
      if_true, Option.some.injEq] at h
    rw [← h]
  | exec =>
    simp only [hostCall] at h
    rcases AliFastSimulationTask.UserExec_cases s.1 s.2 s'.1 s'.2 h with
      ⟨_, hr⟩ | ⟨_, t1, w1, he, hr⟩
    · have hf := AliFastSimulationTask.Run_frame _ _ _ _ hr
      have hh := hf.2.2.2.2.2.2.2.2.2 hq
      simp only [diagState, hf.2.1, hf.2.2.1, hf.2.2.2.2.1, hf.2.2.2.2.2.2.1,
        hf.2.2.2.2.2.2.2.1, hh.1, hh.2.1, hh.2.2]
    · cases hg : s.1.fGen with
      | none => simp [AliFastSimulationTask.ExecOnce, hg] at he
      | some g =>
        obtain ⟨t1', w1', he', -, -, -, -, -, e1, -, e2, e3, e4, e5, e6, e7, e8⟩ :=
          AliFastSimulationTask.ExecOnce_bound s.1 s.2 g hg
        rw [he] at he'
        cases he'
        have hf := AliFastSimulationTask.Run_frame _ _ _ _ hr
        have hh := hf.2.2.2.2.2.2.2.2.2 (e1.trans hq)
        simp only [diagState, hf.2.1, hf.2.2.1, hf.2.2.2.2.1, hf.2.2.2.2.2.2.1,
          hf.2.2.2.2.2.2.2.1, hh.1, hh.2.1, hh.2.2, e1, e2, e3, e4, e5, e6, e7, e8]

theorem hostCalls_diagState (cs : List HostCall) :
    ∀ s s' : AliFastSimulationTask × Host, s.1.fQAhistos = false →
      hostCalls cs s = some s' → diagState s' = diagState s := by
  induction cs with
  | nil =>
    intro s s' _ h
    simp only [hostCalls, Option.some.injEq] at h
    rw [h]
  | cons c cs ih =>
    intro s s' hq h
    simp only [hostCalls] at h
    cases hc : hostCall c s with
    | none => simp [hc] at h
    | some s1 =>
      simp only [hc, Option.some_bind] at h
      have h1 := hostCall_diagState c s s1 hq hc
      have hq1 : s1.1.fQAhistos = false := by
        have := congrArg (fun d => d.1) h1
        simp only [diagState] at this
        rw [this, hq]
      rw [ih s1 s' hq1 h, h1]

/-! ## Claims -/

/-- C1. One call of `Run` (with the collection, the stack and the generator
bound and the diagnostics ready) returns and leaves the output collection with
exactly N - M records, where N is the generated stack's primary count and M
the number of null entries among its primary slots (M ≤ N); the records fill
the consecutive slots 0..N-M-1 in ascending stack-index order, and the k-th
record is built from the k-th non-null primary and carries its first-mother
index unmodified. -/
theorem C1_run_copies_non_null_primaries (t : AliFastSimulationTask) (w : Host)
    (arr : TClonesArray) (st : AliStack) (g : AliGenerator)
    (hmc : t.fMCParticles = some arr) (hst : t.fStack = some st) (hg : t.fGen = some g)
    (hd : t.diagReady w = true) :
    ∃ t' w' arr', AliFastSimulationTask.Run t w = some (t', w') ∧
      t'.fMCParticles = some arr' ∧
      (g.produce g.eventNo).stack.nullPrimaries ≤ (g.produce g.eventNo).stack.primarySlots ∧
      arr'.GetEntriesFast =
        (g.produce g.eventNo).stack.primarySlots - (g.produce g.eventNo).stack.nullPrimaries ∧
      arr'.cont = (g.produce g.eventNo).stack.expectedRecords.map some ∧
      ∀ (k i : Nat), (g.produce g.eventNo).stack.nonNullIndices[k]? = some i →
        ∃ p, (g.produce g.eventNo).stack.Particle i = some p ∧
          arr'.cont[k]? = some (some (recordOf i p)) ∧
          (recordOf i p).mother = p.GetFirstMother := by
  obtain ⟨t', arr', hr, h1, h2, -⟩ :=
    AliFastSimulationTask.Run_ready t w arr st g hmc hst hg hd
  have hl := AliFastSimulationTask.expectedRecords_length (g.produce g.eventNo).stack
  refine ⟨t', _, arr', hr, h1, by omega, ?_, h2, ?_⟩
  · simp only [TClonesArray.GetEntriesFast, h2, List.length_map, hl.1]
    omega
  · intro k i hk
    obtain ⟨p, hp, hget⟩ :=
      AliFastSimulationTask.expectedRecords_get (g.produce g.eventNo).stack _ k i hk
    refine ⟨p, hp, ?_, rfl⟩
    rw [h2, List.getElem?_map]
    unfold AliStack.expectedRecords
    rw [hget]
    rfl

/-- C1 at the sample task: the three-slot stack with one null entry gives two
records, in slots 0 and 1, built from stack indices 0 and 2. -/
theorem C1_run_copies_non_null_primaries_witness :
    sampleReady.1.diagReady sampleReady.2 = true ∧
    ∃ t' w' arr', AliFastSimulationTask.Run sampleReady.1 sampleReady.2 = some (t', w') ∧
      t'.fMCParticles = some arr' ∧ arr'.GetEntriesFast = 3 - 1 ∧
      arr'.cont = [some ⟨⟨2212, 10, -1⟩, 0, -1⟩, some ⟨⟨211, 12, 1⟩, 2, 1⟩] := by
  refine ⟨by decide, ?_⟩
  obtain ⟨t', w', arr', h1, h2, -, h4, h5, -⟩ :=
    C1_run_copies_non_null_primaries sampleReady.1 sampleReady.2
      ((TClonesArray.new 1000).SetName "GenParticles") ⟨0, []⟩
      { sampleGen with random := some (.tRandom3 0), eventListRange := some (0, 1),
                       stackBound := true, initDone := true }
      rfl rfl rfl (by decide)
  exact ⟨t', w', arr', h1, h2, h4, h5⟩

/-- C2. Of two consecutive `Run` calls the second leaves exactly the records
of the second generated stack in the output collection, whatever the first
left there: the content is the one the second call gives on any other
collection in place of the first call's, in particular on an empty one. -/
theorem C2_second_run_drops_first_records (t : AliFastSimulationTask) (w : Host)
    (arr : TClonesArray) (st : AliStack) (g : AliGenerator)
    (hmc : t.fMCParticles = some arr) (hst : t.fStack = some st) (hg : t.fGen = some g)
    (hd : t.diagReady w = true) :
    ∃ t1 w1 t2 w2, AliFastSimulationTask.Run t w = some (t1, w1) ∧
      AliFastSimulationTask.Run t1 w1 = some (t2, w2) ∧
      t1.outputCont = (g.produce g.eventNo).stack.expectedRecords.map some ∧
      t2.outputCont = (g.produce (g.eventNo + 1)).stack.expectedRecords.map some ∧
      ∀ other : TClonesArray, ∃ t2' w2',
        AliFastSimulationTask.Run { t1 with fMCParticles := some other } w1 = some (t2', w2') ∧
        t2'.outputCont = t2.outputCont := by
  obtain ⟨t1, a1, hr1, hm1, hc1, -, -, -, hs1, hg1, hd1, -⟩ :=
    AliFastSimulationTask.Run_ready t w arr st g hmc hst hg hd
  obtain ⟨t2, a2, hr2, hm2, hc2, -⟩ :=
    AliFastSimulationTask.Run_ready t1 _ a1 _ _ hm1 hs1 hg1 hd1
  refine ⟨t1, _, t2, _, hr1, hr2, ?_, ?_, ?_⟩
  · simp [AliFastSimulationTask.outputCont, hm1, hc1]
  · simp [AliFastSimulationTask.outputCont, hm2, hc2]
  · intro other
    obtain ⟨t2', a2', hr2', hm2', hc2', -⟩ :=
      AliFastSimulationTask.Run_ready { t1 with fMCParticles := some other } _ other _ _
        rfl hs1 hg1 (by simpa [AliFastSimulationTask.diagReady] using hd1)
    exact ⟨t2', _, hr2', by simp [AliFastSimulationTask.outputCont, hm2', hc2', hm2, hc2]⟩

/-- C2 at the sample task: the first call leaves two records, the second call
leaves only the single record of the second event. -/
theorem C2_second_run_drops_first_records_witness :
    sampleReady.1.diagReady sampleReady.2 = true ∧
    ∃ t1 w1 t2 w2, AliFastSimulationTask.Run sampleReady.1 sampleReady.2 = some (t1, w1) ∧
      AliFastSimulationTask.Run t1 w1 = some (t2, w2) ∧
      t1.outputCont.length = 2 ∧
      t2.outputCont = [some ⟨⟨22, 20, -1⟩, 0, -1⟩] := by
  refine ⟨by decide, ?_⟩
  obtain ⟨t1, w1, t2, w2, h1, h2, h3, h4, -⟩ :=
    C2_second_run_drops_first_records sampleReady.1 sampleReady.2
      ((TClonesArray.new 1000).SetName "GenParticles") ⟨0, []⟩
      { sampleGen with random := some (.tRandom3 0), eventListRange := some (0, 1),
                       stackBound := true, initDone := true }
      rfl rfl rfl (by decide)
  exact ⟨t1, w1, t2, w2, h1, h2, by rw [h3]; rfl, h4⟩

/-- C3. With diagnostics enabled, the three histograms existing in the shape
`UserCreateOutputObjects` gives them, and a run header carrying PYTHIA metadata
(xsec, trials, pthard), one call of `FillPythiaHistograms` returns and
* adds exactly `trials` to the content of the trials histogram's single bin
  (bin 1), leaving its other bins alone;
* adds one sample of value `xsec` to the single bin of the cross-section
  profile, whose reported value becomes the mean of all samples, the new one
  included;
* adds exactly one entry to the pt-hard histogram, in the bin of `pthard`,
  leaving its other bins alone. -/
theorem C3_fill_pythia_histograms (t : AliFastSimulationTask) (w : Host)
    (hX : TProfile) (hT hP : TH1F) (xsec : ℚ) (trials : Int) (pthard : ℚ)
    (hq : t.fQAhistos = true) (hh : w.GenEventHeader = some (.pythia xsec trials pthard))
    (h1 : t.fHistXsection = some hX) (h2 : t.fHistTrials = some hT)
    (h3 : t.fHistPtHard = some hP)
    (sX : hX.singleBin) (sT : hT.singleBin) (sP : hP.binsAllocated) :
    ∃ t' hX' hT' hP', AliFastSimulationTask.FillPythiaHistograms t w = some (t', w) ∧
      t'.fHistXsection = some hX' ∧ t'.fHistTrials = some hT' ∧ t'.fHistPtHard = some hP' ∧
      hT'.GetBinContent 1 = hT.GetBinContent 1 + (trials : ℚ) ∧
      (∀ b, b ≠ 1 → hT'.GetBinContent b = hT.GetBinContent b) ∧
      hX'.sumY.getD 1 0 = hX.sumY.getD 1 0 + xsec ∧
      hX'.binEntries.getD 1 0 = hX.binEntries.getD 1 0 + 1 ∧
      hX'.GetBinContent 1 = (hX.sumY.getD 1 0 + xsec) / (hX.binEntries.getD 1 0 + 1) ∧
      (∀ samples : List ℚ, hX.sumY.getD 1 0 = samples.sum →
        hX.binEntries.getD 1 0 = (samples.length : ℚ) →
        hX'.GetBinContent 1 = (samples ++ [xsec]).sum / ((samples ++ [xsec]).length : ℚ)) ∧
      hP'.entries = hP.entries + 1 ∧
      hP'.GetBinContent (hP.FindBin pthard) = hP.GetBinContent (hP.FindBin pthard) + 1 ∧
      (∀ b, b ≠ hP.FindBin pthard → hP'.GetBinContent b = hP.GetBinContent b) := by
  obtain ⟨nX, lX, uX, lenS, lenE⟩ := sX
  obtain ⟨nT, lT, uT, lenT⟩ := sT
  have hbinX : TAxisFindBin hX.nbins hX.xlow hX.xup (1/2) = 1 := by
    rw [nX, lX, uX]; exact TAxisFindBin_unit_half
  have hbinT : TAxisFindBin hT.nbins hT.xlow hT.xup (1/2) = 1 := by
    rw [nT, lT, uT]; exact TAxisFindBin_unit_half
  have hbinP : hP.FindBin pthard < hP.bins.length := by
    have := TAxisFindBin_le hP.nbins hP.xlow hP.xup pthard
    unfold TH1F.binsAllocated at sP
    unfold TH1F.FindBin
    omega
  have hsum : (hX.Fill (1/2) xsec).sumY.getD 1 0 = hX.sumY.getD 1 0 + xsec := by
    simp only [TProfile.Fill, hbinX]
    exact addAt_getD_self _ _ _ (by omega)
  have hent : (hX.Fill (1/2) xsec).binEntries.getD 1 0 = hX.binEntries.getD 1 0 + 1 := by
    simp only [TProfile.Fill, hbinX]
    exact addAt_getD_self _ _ _ (by omega)
  have hval : (hX.Fill (1/2) xsec).GetBinContent 1
      = (hX.sumY.getD 1 0 + xsec) / (hX.binEntries.getD 1 0 + 1) := by
    unfold TProfile.GetBinContent
    rw [hsum, hent]
    split_ifs with h0
    · rw [h0, div_zero]
    · rfl
  refine ⟨_, _, _, _,
    AliFastSimulationTask.Fill_pythia t w hX hT hP xsec trials pthard hq hh h1 h2 h3,
    rfl, rfl, rfl, ?_, ?_, hsum, hent, hval, ?_, rfl, ?_, ?_⟩
  · simp only [TH1F.GetBinContent, TH1F.Fill, hbinT]
    exact addAt_getD_self _ _ _ (by omega)
  · intro b hb
    simp only [TH1F.GetBinContent, TH1F.Fill, hbinT]
    exact addAt_getD_other _ _ _ _ hb
  · intro samples hs hn
    rw [hval, hs, hn]
    simp
  · simp only [TH1F.GetBinContent, TH1F.Fill]
    exact addAt_getD_self _ _ _ hbinP
  · intro b hb
    simp only [TH1F.GetBinContent, TH1F.Fill]
    exact addAt_getD_other _ _ _ _ hb

/-- C3 at the freshly created histograms with xsec 5/2, 7 trials and
pt-hard 81/2: the trials bin holds 7, the profile reports 5/2 and the pt-hard
histogram has one entry. -/
theorem C3_fill_pythia_histograms_witness :
    sampleReady.1.fQAhistos = true ∧
    sampleHostWithPythiaHeader.GenEventHeader = some (.pythia (5/2) 7 (81/2)) ∧
    ∃ t' hX' hT' hP',
      AliFastSimulationTask.FillPythiaHistograms sampleReady.1 sampleHostWithPythiaHeader
        = some (t', sampleHostWithPythiaHeader) ∧
      t'.fHistXsection = some hX' ∧ t'.fHistTrials = some hT' ∧ t'.fHistPtHard = some hP' ∧
      hT'.GetBinContent 1 = 7 ∧ hX'.GetBinContent 1 = 5/2 ∧ hP'.entries = 1 := by
  refine ⟨rfl, rfl, ?_⟩
  obtain ⟨t', hX', hT', hP', h0, h1, h2, h3, h4, -, -, -, h5, -, h6, -⟩ :=
    C3_fill_pythia_histograms sampleReady.1 sampleHostWithPythiaHeader
      { TProfile.new "fHistXsection" 1 0 1 with yTitle := "xsection" }
      { TH1F.new "fHistTrials" 1 0 1 with yTitle := "trials" }
      { TH1F.new "fHistPtHard" 500 0 500 with
        xTitle := "p_\x7bT,hard\x7d (GeV/c)", yTitle := "counts" }
      (5/2) 7 (81/2) rfl rfl rfl rfl rfl
      ⟨rfl, rfl, rfl, rfl, rfl⟩ ⟨rfl, rfl, rfl, rfl⟩ (List.length_replicate _ _)
  refine ⟨t', hX', hT', hP', h0, h1, h2, h3, ?_, ?_, h6⟩
  · rw [h4]
    simp [TH1F.GetBinContent, TH1F.new]
  · rw [h5]
    simp [TProfile.new]

/-- C4. With a run header whose generator event header is not of the PYTHIA
kind (the downcast yields null), `FillPythiaHistograms` returns without
changing anything, and an iteration (`Run` on a bound collection, stack and
generator) whose event brings such a header returns with the three histograms
exactly as they were; this holds with diagnostics enabled as well as
disabled. -/
theorem C4_no_update_without_pythia_header (t : AliFastSimulationTask) (w : Host)
    (arr : TClonesArray) (st : AliStack) (g : AliGenerator)
    (hh : w.hasHeader = true)
    (hmc : t.fMCParticles = some arr) (hst : t.fStack = some st) (hg : t.fGen = some g)
    (hn : ∀ x n p, (g.produce g.eventNo).header ≠ some (.pythia x n p)) :
    (∀ w0 : Host, w0.hasHeader = true → w0.GenEventHeader = (g.produce g.eventNo).header →
      AliFastSimulationTask.FillPythiaHistograms t w0 = some (t, w0)) ∧
    ∃ t' w', AliFastSimulationTask.Run t w = some (t', w') ∧
      w'.GenEventHeader = (g.produce g.eventNo).header ∧
      t'.fHistTrials = t.fHistTrials ∧ t'.fHistXsection = t.fHistXsection ∧
      t'.fHistPtHard = t.fHistPtHard := by
  constructor
  · intro w0 h0 he
    exact AliFastSimulationTask.Fill_not_pythia t w0 h0 (by rw [he]; exact hn)
  · have hh' := AliFastSimulationTask.hasHeader_SetGenEventHeader w (g.produce g.eventNo).header
    have he := AliFastSimulationTask.GenEventHeader_SetGenEventHeader w
      (g.produce g.eventNo).header hh
    refine ⟨t.afterCopy arr g, w.SetGenEventHeader (g.produce g.eventNo).header, ?_, he, ?_⟩
    · rw [AliFastSimulationTask.Run_bound t w arr st g hmc hst hg]
      exact AliFastSimulationTask.Fill_not_pythia _ _ (by rw [hh', hh]) (by rw [he]; exact hn)
    · exact ⟨rfl, rfl, rfl⟩

/-- C4 at the sample task with diagnostics enabled and the second sample
event. -/
theorem C4_no_update_without_pythia_header_witness :
    sampleSecond.1.fQAhistos = true ∧ sampleSecond.2.hasHeader = true ∧
    ∃ t' w', AliFastSimulationTask.Run sampleSecond.1 sampleSecond.2 = some (t', w') ∧
      w'.GenEventHeader = some (.other "cocktail") ∧
      t'.fHistTrials = sampleSecond.1.fHistTrials ∧
      t'.fHistXsection = sampleSecond.1.fHistXsection ∧
      t'.fHistPtHard = sampleSecond.1.fHistPtHard :=
  ⟨rfl, rfl,
    (C4_no_update_without_pythia_header sampleSecond.1 sampleSecond.2
      ((TClonesArray.new 1000).SetName "GenParticles") ⟨0, []⟩
      { sampleGen with eventNo := 1 } rfl rfl rfl rfl
      (fun _ _ _ h => by cases h)).2⟩

/-- C5. A task built with diagnostics disabled has `fQAhistos` false, the three
histogram references and the output list unset and no output slot declared.
From any task with `fQAhistos` false, every sequence of
`UserCreateOutputObjects` and `UserExec` calls that runs through leaves the
three histogram references and the output list as they were (so unset, never
created), opens no file and posts no output; and in the resulting state
`FillPythiaHistograms` changes nothing whatever metadata the run header
carries. -/
theorem C5_no_diagnostics_when_disabled (t : AliFastSimulationTask) (w : Host)
    (cs : List HostCall) (s : AliFastSimulationTask × Host)
    (hq : t.fQAhistos = false) (hs : hostCalls cs (t, w) = some s) :
    (∀ name : String, diagState (AliFastSimulationTask.new name false, w)
      = (false, none, none, none, none, [], w.openedFiles, w.posted)) ∧
    diagState (AliFastSimulationTask.default, w)
      = (false, none, none, none, none, [], w.openedFiles, w.posted) ∧
    s.1.fQAhistos = false ∧ s.1.fHistTrials = t.fHistTrials ∧
    s.1.fHistXsection = t.fHistXsection ∧ s.1.fHistPtHard = t.fHistPtHard ∧
    s.1.fOutput = t.fOutput ∧ s.1.outputSlots = t.outputSlots ∧
    s.2.openedFiles = w.openedFiles ∧ s.2.posted = w.posted ∧
    ∀ w0 : Host, AliFastSimulationTask.FillPythiaHistograms s.1 w0 = some (s.1, w0) := by
  have h := hostCalls_diagState cs (t, w) s hq hs
  simp only [diagState, Prod.mk.injEq] at h
  obtain ⟨h1, h2, h3, h4, h5, h6, h7, h8⟩ := h
  refine ⟨fun _ => rfl, rfl, h1.trans hq, h2, h3, h4, h5, h6, h7, h8, ?_⟩
  intro w0
  exact AliFastSimulationTask.Fill_off s.1 w0 (h1.trans hq)

/-- C5 at a task built with diagnostics disabled: after
`UserCreateOutputObjects` and two `UserExec` calls the histogram references and
the output list are unset, nothing is posted, and the events were processed. -/
theorem C5_no_diagnostics_when_disabled_witness :
    quietTask.fQAhistos = false ∧
    ∃ s, hostCalls [.createOutputObjects, .exec, .exec] (quietTask, freshHost) = some s ∧
      s.1.fHistTrials = none ∧ s.1.fHistXsection = none ∧ s.1.fHistPtHard = none ∧
      s.1.fOutput = none ∧ s.2.posted = [] ∧ s.1.fIsInit = true := by
  have h : (hostCalls [.createOutputObjects, .exec, .exec] (quietTask, freshHost)).isSome
      = true := rfl
  obtain ⟨s, hs⟩ := Option.isSome_iff_exists.mp h
  obtain ⟨-, -, -, h1, h2, h3, h4, -, -, h5, -⟩ :=
    C5_no_diagnostics_when_disabled quietTask freshHost _ s rfl hs
  refine ⟨rfl, s, hs, h1, h2, h3, h4, h5, ?_⟩
  have := congrArg (fun o => o.map (fun s => s.1.fIsInit)) hs
  exact Option.some.inj this.symm

/-- C6. On an input event without duplicate names and with a generator bound,
running `ExecOnce` twice succeeds both times and the second run adds no entry:
the object list is the one the first run left, which holds exactly one object
under the output collection's name and exactly one under the stack's name.
Likewise after any number of `UserExec` calls the object list is either the
initial one or the one of the first setup, so it has no duplicate names, at
most one object under the output collection's name and at most one under the
stack's name. -/
theorem C6_setup_registers_at_most_once (t : AliFastSimulationTask) (w : Host)
    (g : AliGenerator) (hg : t.fGen = some g) (hnd : (objectNames w.inputEvent).Nodup) :
    ∃ t1 w1 t2 w2, AliFastSimulationTask.ExecOnce t w = some (true, t1, w1) ∧
      AliFastSimulationTask.ExecOnce t1 w1 = some (true, t2, w2) ∧
      w2.inputEvent = w1.inputEvent ∧
      (objectNames w1.inputEvent).count t.fMCParticlesName = 1 ∧
      (objectNames w1.inputEvent).count "AliStack" = 1 ∧
      ∀ n s, userExecs n (t, w) = some s →
        (s.2.inputEvent = w.inputEvent ∨ s.2.inputEvent = w1.inputEvent) ∧
        (objectNames s.2.inputEvent).Nodup ∧
        (objectNames s.2.inputEvent).count t.fMCParticlesName ≤ 1 ∧
        (objectNames s.2.inputEvent).count "AliStack" ≤ 1 := by
  obtain ⟨t1, w1, he1, hev1, -, hname1, -, hg1, -⟩ :=
    AliFastSimulationTask.ExecOnce_bound t w g hg
  obtain ⟨g1, hg1⟩ := Option.isSome_iff_exists.mp hg1
  obtain ⟨t2, w2, he2, hev2, -⟩ := AliFastSimulationTask.ExecOnce_bound t1 w1 g1 hg1
  have hf := registered_facts w.inputEvent t.fMCParticlesName hnd
  have hev1' : w1.inputEvent = registered w.inputEvent t.fMCParticlesName := hev1
  refine ⟨t1, w1, t2, w2, he1, he2, ?_, ?_, ?_, ?_⟩
  · have : w2.inputEvent = registered w1.inputEvent t.fMCParticlesName := by
      rw [hev2, hname1]; rfl
    rw [this, hev1', hf.2.2.2]
  · rw [hev1']
    exact List.count_eq_one_of_mem hf.1 hf.2.1
  · rw [hev1']
    exact List.count_eq_one_of_mem hf.1 hf.2.2.1
  · intro n s hs
    have hinv := (userExecs_inputEvent w.inputEvent t.fMCParticlesName n (t, w) s hs rfl
      (Or.inl rfl)).2
    have hcase : s.2.inputEvent = w.inputEvent ∨ s.2.inputEvent = w1.inputEvent := by
      rcases hinv with h0 | ⟨_, h1⟩
      · exact Or.inl h0
      · exact Or.inr (h1.trans hev1'.symm)
    have hnd' : (objectNames s.2.inputEvent).Nodup := by
      rcases hcase with h0 | h1
      · rw [h0]; exact hnd
      · rw [h1, hev1']; exact hf.1
    exact ⟨hcase, hnd', List.nodup_iff_count_le_one.mp hnd' _,
      List.nodup_iff_count_le_one.mp hnd' _⟩

/-- C6 at the sample task on an input event holding one other object. -/
theorem C6_setup_registers_at_most_once_witness :
    (objectNames [ListObject.other "tracks"]).Nodup ∧
    ∃ t1 w1 t2 w2,
      AliFastSimulationTask.ExecOnce sampleTask.1
        { sampleTask.2 with inputEvent := [.other "tracks"] } = some (true, t1, w1) ∧
      AliFastSimulationTask.ExecOnce t1 w1 = some (true, t2, w2) ∧
      w2.inputEvent = w1.inputEvent ∧
      (objectNames w1.inputEvent).count "GenParticles" = 1 ∧
      (objectNames w1.inputEvent).count "AliStack" = 1 := by
  refine ⟨by decide, ?_⟩
  obtain ⟨t1, w1, t2, w2, h1, h2, h3, h4, h5, -⟩ :=
    C6_setup_registers_at_most_once sampleTask.1
      { sampleTask.2 with inputEvent := [.other "tracks"] } sampleGen rfl (by decide)
  exact ⟨t1, w1, t2, w2, h1, h2, h3, h4, h5⟩

/-- C8 fails as stated: on the sample stack the particle at stack index 2 has
first mother 1, a null slot; its record lands in output slot 1 with mother
index 1, which is neither negative nor an earlier slot. -/
theorem C8_counterexample :
    ∃ t' w', AliFastSimulationTask.Run sampleReady.1 sampleReady.2 = some (t', w') ∧
      t'.outputCont = [some ⟨⟨2212, 10, -1⟩, 0, -1⟩, some ⟨⟨211, 12, 1⟩, 2, 1⟩] ∧
      ¬ MotherLinksResolved t'.outputCont := by
  obtain ⟨t', arr', hr, hm, hc, -⟩ :=
    AliFastSimulationTask.Run_ready sampleReady.1 sampleReady.2
      ((TClonesArray.new 1000).SetName "GenParticles") ⟨0, []⟩
      { sampleGen with random := some (.tRandom3 0), eventListRange := some (0, 1),
                       stackBound := true, initDone := true }
      rfl rfl rfl (by decide)
  have hcont : t'.outputCont = [some ⟨⟨2212, 10, -1⟩, 0, -1⟩, some ⟨⟨211, 12, 1⟩, 2, 1⟩] := by
    simp only [AliFastSimulationTask.outputCont, hm, hc]
    rfl
  refine ⟨t', _, hr, hcont, ?_⟩
  intro h
  rw [hcont] at h
  rcases h 1 ⟨⟨211, 12, 1⟩, 2, 1⟩ rfl with h0 | ⟨j, hj, hj'⟩
  · exact absurd h0 (by decide)
  · simp only at hj'
    omega

/-- C8, as amended. `Run` (with the collection, the stack and the generator
bound and the diagnostics ready) returns, and every record of the output
collection is the record of its source particle: the record in slot k comes
from the k-th non-null primary of the generated stack and carries that
particle's first-mother index unmodified, a raw stack index. When moreover the
generated stack has no null entry among its primary slots and every primary's
first-mother index is smaller than its own stack index (negative included),
every record's mother index is negative or the slot of a record written
earlier in that run. -/
theorem C8_mother_links_resolved_without_nulls (t : AliFastSimulationTask) (w : Host)
    (arr : TClonesArray) (st : AliStack) (g : AliGenerator)
    (hmc : t.fMCParticles = some arr) (hst : t.fStack = some st) (hg : t.fGen = some g)
    (hd : t.diagReady w = true) :
    ∃ t' w', AliFastSimulationTask.Run t w = some (t', w') ∧
      t'.outputCont = (g.produce g.eventNo).stack.expectedRecords.map some ∧
      (∀ (k : Nat) (r : AliMCParticle), t'.outputCont[k]? = some (some r) →
        ∃ (i : Nat) (p : TParticle),
          (g.produce g.eventNo).stack.nonNullIndices[k]? = some i ∧
          (g.produce g.eventNo).stack.Particle i = some p ∧
          r.particle = p ∧ r.label = (i : Int) ∧ r.mother = p.GetFirstMother) ∧
      ((g.produce g.eventNo).stack.nullPrimaries = 0 →
        (∀ (i : Nat) (p : TParticle), i < (g.produce g.eventNo).stack.primarySlots →
          (g.produce g.eventNo).stack.Particle i = some p → p.firstMother < (i : Int)) →
        MotherLinksResolved t'.outputCont) := by
  obtain ⟨t', arr', hr, hm, hc, -⟩ :=
    AliFastSimulationTask.Run_ready t w arr st g hmc hst hg hd
  have hcont : t'.outputCont = (g.produce g.eventNo).stack.expectedRecords.map some := by
    simp only [AliFastSimulationTask.outputCont, hm, hc]
  have hlen := AliFastSimulationTask.expectedRecords_length (g.produce g.eventNo).stack
  have hsrc : ∀ (k : Nat) (r : AliMCParticle), t'.outputCont[k]? = some (some r) →
      ∃ (i : Nat) (p : TParticle),
        (g.produce g.eventNo).stack.nonNullIndices[k]? = some i ∧
        (g.produce g.eventNo).stack.Particle i = some p ∧ r = recordOf i p := by
    intro k r hk
    rw [hcont, List.getElem?_map] at hk
    cases hrec : (g.produce g.eventNo).stack.expectedRecords[k]? with
    | none => simp [hrec] at hk
    | some r0 =>
      simp only [hrec, Option.map_some', Option.some.injEq] at hk
      subst hk
      have hklt : k < (g.produce g.eventNo).stack.nonNullIndices.length := by
        have h1 := (List.getElem?_eq_some_iff.mp hrec).1
        rw [hlen.1] at h1
        exact h1
      obtain ⟨p, hp, hget⟩ :=
        AliFastSimulationTask.expectedRecords_get (g.produce g.eventNo).stack _ k
          ((g.produce g.eventNo).stack.nonNullIndices[k]) (List.getElem?_eq_getElem hklt)
      refine ⟨_, p, List.getElem?_eq_getElem hklt, hp, ?_⟩
      unfold AliStack.expectedRecords at hrec
      rw [hget] at hrec
      exact (Option.some.inj hrec).symm
  refine ⟨t', _, hr, hcont, ?_, ?_⟩
  · intro k r hk
    obtain ⟨i, p, hi, hp, hrp⟩ := hsrc k r hk
    subst hrp
    exact ⟨i, p, hi, hp, rfl, rfl, rfl⟩
  · intro hnull hmother k r hk
    obtain ⟨i, p, hi, hp, hrp⟩ := hsrc k r hk
    have hall : ∀ j ∈ List.range (g.produce g.eventNo).stack.primarySlots,
        ((g.produce g.eventNo).stack.Particle j).isSome = true := by
      intro j hj
      unfold AliStack.nullPrimaries at hnull
      have hnil := List.length_eq_zero.mp hnull
      rw [List.filter_eq_nil_iff] at hnil
      have := hnil j hj
      cases hpj : (g.produce g.eventNo).stack.Particle j with
      | none => simp [hpj] at this
      | some q => rfl
    have hidx : (g.produce g.eventNo).stack.nonNullIndices
        = List.range (g.produce g.eventNo).stack.primarySlots := by
      unfold AliStack.nonNullIndices
      exact List.filter_eq_self.mpr hall
    rw [hidx] at hi
    have hklt : k < (g.produce g.eventNo).stack.primarySlots := by
      have h1 := (List.getElem?_eq_some_iff.mp hi).1
      rw [List.length_range] at h1
      exact h1
    have hik : i = k := by
      rw [List.getElem?_range hklt] at hi
      exact (Option.some.inj hi).symm
    subst hik
    have hlt := hmother i p hklt hp
    subst hrp
    simp only [recordOf]
    by_cases hneg : p.firstMother < 0
    · exact Or.inl hneg
    · right
      refine ⟨p.firstMother.toNat, ?_, ?_⟩
      · omega
      · omega

/-- C8 as amended, at a stack without nulls whose mothers precede their
daughters: the three records carry the first-mother indices -1, 0 and 0 of
their source particles, and every mother index is negative or an earlier
slot. -/
theorem C8_mother_links_resolved_without_nulls_witness :
    chainReady.1.diagReady chainReady.2 = true ∧
    (chainEvents 0).stack.nullPrimaries = 0 ∧
    ∃ t' w', AliFastSimulationTask.Run chainReady.1 chainReady.2 = some (t', w') ∧
      t'.outputCont = [some ⟨⟨2212, 1, -1⟩, 0, -1⟩, some ⟨⟨211, 2, 0⟩, 1, 0⟩,
        some ⟨⟨-211, 3, 0⟩, 2, 0⟩] ∧
      MotherLinksResolved t'.outputCont := by
  refine ⟨by decide, by decide, ?_⟩
  obtain ⟨t', w', hr, hcont, -, hres⟩ :=
    C8_mother_links_resolved_without_nulls chainReady.1 chainReady.2
      ((TClonesArray.new 1000).SetName "GenParticles") ⟨0, []⟩
      { sampleGen with produce := chainEvents }
      rfl rfl rfl (by decide)
  refine ⟨t', w', hr, by rw [hcont]; rfl, hres (by decide) ?_⟩
  intro i p hi hp
  have hi3 : i < 3 := hi
  interval_cases i
  · cases (Option.some.inj hp); decide
  · cases (Option.some.inj hp); decide
  · cases (Option.some.inj hp); decide

/-- C9 fails as stated: a stack with 1001 non-null primaries leaves 1001
records in the collection created with the capacity guess of 1000. -/
theorem C9_counterexample :
    crowdedReady.1.fMCParticles = some ((TClonesArray.new 1000).SetName "GenParticles") ∧
    ∃ t' w' arr', AliFastSimulationTask.Run crowdedReady.1 crowdedReady.2 = some (t', w') ∧
      t'.fMCParticles = some arr' ∧ arr'.GetEntriesFast = 1001 ∧
      ¬ arr'.GetEntriesFast ≤ 1000 := by
  refine ⟨rfl, ?_⟩
  obtain ⟨t', arr', hr, hm, hc, -⟩ :=
    AliFastSimulationTask.Run_ready crowdedReady.1 crowdedReady.2
      ((TClonesArray.new 1000).SetName "GenParticles") ⟨0, []⟩
      { sampleGen with produce := crowdedEvents }
      rfl rfl rfl (by decide)
  have hlen : arr'.GetEntriesFast = 1001 := by
    simp only [TClonesArray.GetEntriesFast, hc, List.length_map]
    exact AliFastSimulationTask.expectedRecords_replicate 1001 ⟨211, 0, -1⟩
  exact ⟨t', _, arr', hr, hm, hlen, by omega⟩

/-- C9, as amended. After `Run` the number of records in the output
collection never exceeds the generated stack's primary count nor the
collection's allocated capacity, which is never below what it was before the
call (1000 at creation) and grows when a record is written beyond it; so the
number of records is at most 1000 whenever the stack has at most 1000
primaries. -/
theorem C9_output_size_within_primaries_and_capacity (t : AliFastSimulationTask) (w : Host)
    (arr : TClonesArray) (st : AliStack) (g : AliGenerator)
    (hmc : t.fMCParticles = some arr) (hst : t.fStack = some st) (hg : t.fGen = some g)
    (hd : t.diagReady w = true) :
    ∃ t' w' arr', AliFastSimulationTask.Run t w = some (t', w') ∧
      t'.fMCParticles = some arr' ∧
      arr'.GetEntriesFast ≤ (g.produce g.eventNo).stack.primarySlots ∧
      arr'.GetEntriesFast ≤ arr'.capacity ∧ arr.capacity ≤ arr'.capacity ∧
      ((g.produce g.eventNo).stack.primarySlots ≤ 1000 → arr'.GetEntriesFast ≤ 1000) := by
  obtain ⟨t', arr', hr, hm, hc, -, hcap, hle, -⟩ :=
    AliFastSimulationTask.Run_ready t w arr st g hmc hst hg hd
  have hl := AliFastSimulationTask.expectedRecords_length (g.produce g.eventNo).stack
  have hN : arr'.GetEntriesFast ≤ (g.produce g.eventNo).stack.primarySlots := by
    simp only [TClonesArray.GetEntriesFast, hc, List.length_map, hl.1]
    omega
  exact ⟨t', _, arr', hr, hm, hN, hle, hcap, fun h => le_trans hN h⟩

/-- C9 as amended, at the sample task: two records, within the three primary
slots and within the capacity of 1000. -/
theorem C9_output_size_within_primaries_and_capacity_witness :
    sampleReady.1.diagReady sampleReady.2 = true ∧
    ∃ t' w' arr', AliFastSimulationTask.Run sampleReady.1 sampleReady.2 = some (t', w') ∧
      t'.fMCParticles = some arr' ∧ arr'.GetEntriesFast ≤ 3 ∧
      arr'.GetEntriesFast ≤ arr'.capacity ∧ 1000 ≤ arr'.capacity ∧ arr'.GetEntriesFast ≤ 1000 := by
  refine ⟨by decide, ?_⟩
  obtain ⟨t', w', arr', h1, h2, h3, h4, h5, h6⟩ :=
    C9_output_size_within_primaries_and_capacity sampleReady.1 sampleReady.2
      ((TClonesArray.new 1000).SetName "GenParticles") ⟨0, []⟩
      { sampleGen with random := some (.tRandom3 0), eventListRange := some (0, 1),
                       stackBound := true, initDone := true }
      rfl rfl rfl (by decide)
  exact ⟨t', w', arr', h1, h2, h3, h4, h5, h6 (by decide)⟩

/-- C10 fails on the code: with an object named `GenParticles` already in the
input event, `ExecOnce` returns `kTRUE` although `fMCParticles` is still null;
the `Run` that follows dereferences the null collection, so the first
`UserExec` call fails. -/
theorem C10_setup_succeeds_with_null_collection :
    (occupiedHost.FindListObject sampleTask.1.fMCParticlesName).isSome = true ∧
    ∃ t1 w1, AliFastSimulationTask.ExecOnce sampleTask.1 occupiedHost = some (true, t1, w1) ∧
      t1.fMCParticles = none ∧
      AliFastSimulationTask.Run { t1 with fIsInit := true } w1 = none ∧
      AliFastSimulationTask.UserExec sampleTask.1 occupiedHost = none :=
  ⟨by decide, _, _, rfl, rfl, rfl, rfl⟩
